import Mathlib

/-!
# quad_control: outer-loop flight controller

A shallow embedding of `src/app/src/quad_control.cpp` and of
`src/app_quad_control/src/compensators.cpp`.

C++ `float` values are modelled by the elements of an arbitrary linearly
ordered field `K`: every definition is executable at `K = ℚ` and every
theorem holds at `K = ℝ`.  Rounding, NaN and infinities are outside the
model, except that a product of two `float` values inside a divisor of a
compensator is zero when it underflows (`float_mul`).  The `params::`
constants, which the program reads from a YAML file,
are fields of the structure `Params`; the constants of `compensators.cpp`
are fields of `Compensators.Constants`.  The `<cmath>` functions are the
fields of `CMath`, and the Eigen operations are modelled by their library
definitions.
-/

namespace QuadControl

variable {K : Type} [LinearOrderedField K]

/-! ## Constants (`quad_control.cpp`, lines 32-35) -/

/-- Gravitational acceleration, `const float g = 9.81`. -/
def g : K := 9.81

/-- Quadcopter mass, `const float quadcopter_mass = 1.5`. -/
def quadcopter_mass : K := 1.5

/-- Maximal thrust, `const float max_thrust = 4 * 8.9764`. -/
def max_thrust : K := 4 * 8.9764

/-! ## Thrust to throttle (`quad_control.cpp`, lines 39-47) -/

/-- Thrust-throttle relation: the two early returns and the linear map. -/
def thrust_to_throttle (thrust : K) : K :=
  if thrust > max_thrust then 1
  else if thrust < 0 then 0
  else 0.02394 * thrust + 0.1644

/-! ## Vectors (`Eigen::Vector3f`) -/

/-- A three-component vector, `Eigen::Vector3f`; `x`, `y`, `z` are the
components `(0)`, `(1)`, `(2)`. -/
structure Vector3 (K : Type) where
  x : K
  y : K
  z : K
deriving DecidableEq, Repr

namespace Vector3

/-- Component-wise difference, `a - b`. -/
def sub (a b : Vector3 K) : Vector3 K := ⟨a.x - b.x, a.y - b.y, a.z - b.z⟩

/-- Component-wise sum, `a + b`. -/
def add (a b : Vector3 K) : Vector3 K := ⟨a.x + b.x, a.y + b.y, a.z + b.z⟩

/-- Product with a scalar, `a * k`. -/
def scale (a : Vector3 K) (k : K) : Vector3 K := ⟨a.x * k, a.y * k, a.z * k⟩

/-- Quotient by a scalar, `a / k`. -/
def divide (a : Vector3 K) (k : K) : Vector3 K := ⟨a.x / k, a.y / k, a.z / k⟩

/-- Scalar product, `a.dot(b)`. -/
def dot (a b : Vector3 K) : K := a.x * b.x + a.y * b.y + a.z * b.z

end Vector3

/-! ## Reference generation (`quad_control.cpp`, lines 50-77) -/

/-- The three reference arguments of `trajectory_generator`: the current
position `pos` and the in-out parameters `pos_ref` and `yaw_ref`. -/
structure TrajectoryArgs (K : Type) where
  pos : Vector3 K
  pos_ref : Vector3 K
  yaw_ref : K
deriving DecidableEq, Repr

/-- The function `trajectory_generator`: three consecutive `if` statements,
each overwriting `pos_ref` and `yaw_ref` when its condition on `t` holds.
The result holds the values of the reference arguments on return. -/
def trajectory_generator (t : K) (a : TrajectoryArgs K) : TrajectoryArgs K :=
  let a1 : TrajectoryArgs K :=
    if t > 0 ∧ t ≤ 15 then ⟨a.pos, ⟨0, 0, 2.1⟩, 0.0⟩ else a
  let a2 : TrajectoryArgs K :=
    if t > 15 ∧ t ≤ 45 then ⟨a1.pos, ⟨0, 0, 1.1⟩, 0.0⟩ else a1
  let a3 : TrajectoryArgs K :=
    if t > 45 then ⟨a2.pos, ⟨a2.pos.x, a2.pos.y, 0.0⟩, 0.0⟩ else a2
  a3

/-! ## The control loop (`quad_control.cpp`, lines 145-307) -/

/-- The `params::` values used by the control loop.  `T_s` is the tick
period in milliseconds, an integer (it is passed to `milliseconds(...)`). -/
structure Params (K : Type) where
  T_s : ℤ
  P_pos_XY : K
  P_pos_Z : K
  max_vel_XY : K
  max_vel_Z_UP : K
  max_vel_Z_DOWN : K
  P_vel_XY : K
  I_vel_XY : K
  D_vel_XY : K
  P_vel_Z : K
  I_vel_Z : K
  D_vel_Z : K

/-- The telemetry read during one tick: position and velocity in the NED
frame and the attitude quaternion.  One sample stands for all the telemetry
calls of lines 181-196. -/
structure Sample (K : Type) where
  north_m : K
  east_m : K
  down_m : K
  north_m_s : K
  east_m_s : K
  down_m_s : K
  qw : K
  qx : K
  qy : K
  qz : K

/-- Current position, lines 181-183: `pos(2)` is `-down_m`. -/
def Sample.pos (s : Sample K) : Vector3 K := ⟨s.north_m, s.east_m, -s.down_m⟩

/-- Current velocity, lines 185-187: `vel(2)` is `-down_m_s`. -/
def Sample.vel (s : Sample K) : Vector3 K := ⟨s.north_m_s, s.east_m_s, -s.down_m_s⟩

/-- The third column of `att_quat.toRotationMatrix()` (line 198), by the
formula of Eigen's `QuaternionBase::toRotationMatrix`: it is
`body_frame.col(2)`, the current body z-axis. -/
def Sample.body_frame_col2 (s : Sample K) : Vector3 K :=
  let tx := 2 * s.qx
  let ty := 2 * s.qy
  let tz := 2 * s.qz
  let twx := tx * s.qw
  let twy := ty * s.qw
  let txx := tx * s.qx
  let txz := tz * s.qx
  let tyy := ty * s.qy
  let tyz := tz * s.qy
  ⟨txz + twy, tyz - twx, 1 - (txx + tyy)⟩

/-- The variables declared before the loop that the controller stages read
and write (lines 148-150, 156, 166-170). -/
structure ControlState (K : Type) where
  pos_ref : Vector3 K
  vel_ref : Vector3 K
  acc_ref : Vector3 K
  yaw_ref : K
  pos_p_error : Vector3 K
  vel_p_error : Vector3 K
  vel_p_error_last : Vector3 K
  vel_i_error : Vector3 K
  vel_d_error : Vector3 K

/-- The values of lines 148-170 before the first tick: all zero. -/
def initial_state : ControlState K :=
  ⟨⟨0, 0, 0⟩, ⟨0, 0, 0⟩, ⟨0, 0, 0⟩, 0, ⟨0, 0, 0⟩, ⟨0, 0, 0⟩, ⟨0, 0, 0⟩,
   ⟨0, 0, 0⟩, ⟨0, 0, 0⟩⟩

/-- The pair of `if` statements that constrain one component of `vel_ref`
(lines 218-235): first against the upper limit `up`, then against the lower
limit `-down`. -/
def constrain (v up down : K) : K :=
  let v1 := if v > up then up else v
  if v1 < -down then -down else v1

/-- Elapsed time of tick `i`, line 177: `float(i * params::T_s) / 1000.0`.
The product is an `int` product; the model is the value for products that
fit in an `int`. -/
def tick_time (p : Params K) (i : ℤ) : K := ((i * p.T_s : ℤ) : K) / 1000

/-- Tick duration in seconds, line 173: `float(params::T_s) / 1000.0`. -/
def T_s_sec (p : Params K) : K := (p.T_s : K) / 1000

/-- Trajectory generation and position controller of one tick (lines
207-235): the value of `pos_ref`, `yaw_ref`, `pos_p_error` and `vel_ref`
after the clamps. -/
def position_stage (p : Params K) (i : ℤ) (s : Sample K) (c : ControlState K) :
    ControlState K :=
  let r := trajectory_generator (tick_time p i) ⟨s.pos, c.pos_ref, c.yaw_ref⟩
  let pos_p_error := Vector3.sub r.pos_ref r.pos
  let vel_ref : Vector3 K :=
    ⟨constrain (p.P_pos_XY * pos_p_error.x) p.max_vel_XY p.max_vel_XY,
     constrain (p.P_pos_XY * pos_p_error.y) p.max_vel_XY p.max_vel_XY,
     constrain (p.P_pos_Z * pos_p_error.z) p.max_vel_Z_UP p.max_vel_Z_DOWN⟩
  ⟨r.pos_ref, vel_ref, c.acc_ref, r.yaw_ref, pos_p_error, c.vel_p_error,
   c.vel_p_error_last, c.vel_i_error, c.vel_d_error⟩

/-- Velocity controller and gravity term of one tick (lines 237-259), run on
the state left by the position controller; `vel` is the current velocity. -/
def velocity_stage (p : Params K) (vel : Vector3 K) (c : ControlState K) :
    ControlState K :=
  let vel_p_error_last := c.vel_p_error
  let vel_p_error := Vector3.sub c.vel_ref vel
  let vel_i_error := Vector3.add c.vel_i_error (Vector3.scale vel_p_error (T_s_sec p))
  let vel_d_error := Vector3.divide (Vector3.sub vel_p_error vel_p_error_last) (T_s_sec p)
  let acc_ref : Vector3 K :=
    ⟨p.P_vel_XY * vel_p_error.x + p.I_vel_XY * vel_i_error.x + p.D_vel_XY * vel_d_error.x,
     p.P_vel_XY * vel_p_error.y + p.I_vel_XY * vel_i_error.y + p.D_vel_XY * vel_d_error.y,
     p.P_vel_Z * vel_p_error.z + p.I_vel_Z * vel_i_error.z + p.D_vel_Z * vel_d_error.z⟩
  ⟨c.pos_ref, c.vel_ref, ⟨acc_ref.x, acc_ref.y, acc_ref.z - g⟩, c.yaw_ref,
   c.pos_p_error, vel_p_error, vel_p_error_last, vel_i_error, vel_d_error⟩

/-- The controller state after tick `i` (lines 207-259).  The reference body
frame and the Euler angles of lines 261-278 are computed from `acc_ref` and
`yaw_ref` and written to no variable of `ControlState`. -/
def control_step (p : Params K) (i : ℤ) (s : Sample K) (c : ControlState K) :
    ControlState K :=
  velocity_stage p s.vel (position_stage p i s c)

/-- The thrust values of one tick (lines 281-284 and 306). -/
structure ThrustCommand (K : Type) where
  acc_proj_z_b : K
  thrust_ref : K
  throttle_ref : K
  thrust_value : K

/-- Thrust projection and throttle (lines 281-284, 306), from the state
after the velocity controller. -/
def thrust_command (s : Sample K) (c : ControlState K) : ThrustCommand K :=
  let acc_proj_z_b := Vector3.dot c.acc_ref s.body_frame_col2
  let thrust_ref := acc_proj_z_b * quadcopter_mass
  let throttle_ref := thrust_to_throttle thrust_ref
  ⟨acc_proj_z_b, thrust_ref, throttle_ref, throttle_ref⟩

/-- The loop of line 175 run over the given samples, one per tick, from
loop index `i`: the controller state after the last of them. -/
def control_loop (p : Params K) : List (Sample K) → ℤ → ControlState K → ControlState K
  | [], _, c => c
  | s :: ss, i, c => control_loop p ss (i + 1) (control_step p i s c)

/-- The velocity errors `vel_ref - vel` of the successive ticks of the loop
run over the given samples from loop index `i`. -/
def velocity_errors (p : Params K) : List (Sample K) → ℤ → ControlState K → List (Vector3 K)
  | [], _, _ => []
  | s :: ss, i, c =>
    Vector3.sub (position_stage p i s c).vel_ref s.vel ::
      velocity_errors p ss (i + 1) (control_step p i s c)

/-- The velocity controller alone (lines 237-255): the state after line 255,
where `acc_ref` is the PID output, before the gravity term of line 259. -/
def velocity_controller (p : Params K) (vel : Vector3 K) (c : ControlState K) :
    ControlState K :=
  let vel_p_error_last := c.vel_p_error
  let vel_p_error := Vector3.sub c.vel_ref vel
  let vel_i_error := Vector3.add c.vel_i_error (Vector3.scale vel_p_error (T_s_sec p))
  let vel_d_error := Vector3.divide (Vector3.sub vel_p_error vel_p_error_last) (T_s_sec p)
  let acc_ref : Vector3 K :=
    ⟨p.P_vel_XY * vel_p_error.x + p.I_vel_XY * vel_i_error.x + p.D_vel_XY * vel_d_error.x,
     p.P_vel_XY * vel_p_error.y + p.I_vel_XY * vel_i_error.y + p.D_vel_XY * vel_d_error.y,
     p.P_vel_Z * vel_p_error.z + p.I_vel_Z * vel_i_error.z + p.D_vel_Z * vel_d_error.z⟩
  ⟨c.pos_ref, c.vel_ref, acc_ref, c.yaw_ref,
   c.pos_p_error, vel_p_error, vel_p_error_last, vel_i_error, vel_d_error⟩

/-! ## Phase conditions of `trajectory_generator` (lines 52, 59, 71) -/

/-- The condition of the first `if`, `t > 0 && t <= 15`. -/
def takeoff_condition (t : K) : Bool := decide (t > 0 ∧ t ≤ 15)

/-- The condition of the second `if`, `t > 15 && t <= 45`. -/
def step_condition (t : K) : Bool := decide (t > 15 ∧ t ≤ 45)

/-- The condition of the third `if`, `t > 45`. -/
def land_condition (t : K) : Bool := decide (t > 45)

/-! ## Library functions

The functions of `<cmath>` that the program calls are the fields of `CMath`;
the theorems state as hypotheses what they use of them. -/

/-- The `<cmath>` functions and the constant `M_PI`. -/
structure CMath (K : Type) where
  sqrt : K → K
  sin : K → K
  cos : K → K
  exp : K → K
  atan2 : K → K → K
  pow : K → K → K
  pi : K

namespace Vector3

/-- Vector product, `a.cross(b)`. -/
def cross (a b : Vector3 K) : Vector3 K :=
  ⟨a.y * b.z - a.z * b.y, a.z * b.x - a.x * b.z, a.x * b.y - a.y * b.x⟩

/-- Squared length, Eigen's `squaredNorm()`. -/
def squaredNorm (a : Vector3 K) : K := a.x * a.x + a.y * a.y + a.z * a.z

/-- Length, Eigen's `norm()`: the square root of `squaredNorm()`. -/
def norm (m : CMath K) (a : Vector3 K) : K := m.sqrt (squaredNorm a)

/-- Eigen's `normalize()`: the vector is divided by its length when its
squared length is positive, and left unchanged otherwise. -/
def normalize (m : CMath K) (a : Vector3 K) : Vector3 K :=
  let z := squaredNorm a
  if z > 0 then divide a (m.sqrt z) else a

end Vector3

/-! ## Attitude synthesis (`quad_control.cpp`, lines 261-278, 303-306) -/

/-- A 3x3 matrix given by its columns, `Eigen::Matrix3f`; the coefficient
`(i, j)` is component `i` of column `j`. -/
structure Matrix3 (K : Type) where
  col0 : Vector3 K
  col1 : Vector3 K
  col2 : Vector3 K

/-- Determinant of a 3x3 matrix, by expansion along the first row. -/
def Matrix3.determinant (M : Matrix3 K) : K :=
  M.col0.x * (M.col1.y * M.col2.z - M.col2.y * M.col1.z) -
  M.col1.x * (M.col0.y * M.col2.z - M.col2.y * M.col0.z) +
  M.col2.x * (M.col0.y * M.col1.z - M.col1.y * M.col0.z)

/-- The reference body frame of lines 262-275, from `acc_ref` (after the
gravity term) and `yaw_ref`: the matrix with columns `x_b_ref`, `y_b_ref`,
`z_b_ref`. -/
def reference_body_frame (m : CMath K) (acc_ref : Vector3 K) (yaw_ref : K) : Matrix3 K :=
  let y_c : Vector3 K := ⟨-m.sin yaw_ref, m.cos yaw_ref, 0⟩
  let z_b_ref := Vector3.normalize m acc_ref
  let x_b_ref := Vector3.normalize m (Vector3.cross y_c z_b_ref)
  let y_b_ref := Vector3.cross z_b_ref x_b_ref
  ⟨x_b_ref, y_b_ref, z_b_ref⟩

/-- Eigen's `eulerAngles(0, 1, 2)` (line 278).  With these indices Eigen has
`odd = 0`, `i = 0`, `j = 1`, `k = 2` and takes the branch for three
different axes. -/
def eulerAngles (m : CMath K) (M : Matrix3 K) : Vector3 K :=
  let r0 := m.atan2 M.col2.y M.col2.z
  let c2 := m.sqrt (M.col0.x * M.col0.x + M.col1.x * M.col1.x)
  let res0 := if r0 > 0 then (if r0 > 0 then r0 - m.pi else r0 + m.pi) else r0
  let res1 := if r0 > 0 then m.atan2 (-M.col2.x) (-c2) else m.atan2 (-M.col2.x) c2
  let s1 := m.sin res0
  let c1 := m.cos res0
  let res2 := m.atan2 (s1 * M.col0.z - c1 * M.col0.y) (c1 * M.col1.y - s1 * M.col1.z)
  ⟨-res0, -res1, -res2⟩

/-- The attitude command, `Offboard::Attitude`. -/
structure Attitude (K : Type) where
  roll_deg : K
  pitch_deg : K
  yaw_deg : K
  thrust_value : K

/-- The attitude command of one tick (lines 262-278 and 303-306), from the
state after the velocity controller and the gravity term. -/
def attitude_command (m : CMath K) (s : Sample K) (c : ControlState K) : Attitude K :=
  let euler_ref := eulerAngles m (reference_body_frame m c.acc_ref c.yaw_ref)
  ⟨-euler_ref.x * (180.0 / m.pi), -euler_ref.y * (180.0 / m.pi),
   -euler_ref.z * (180.0 / m.pi), (thrust_command s c).throttle_ref⟩

/-! ## Compensators

A division whose divisor is zero is a domain error: the compensators return
`none` there and `some` of their value otherwise. -/

/-- The binary32 product of two `float` values, as far as it decides whether
a divisor is zero: an exact product of magnitude at most `2^-150` underflows
to zero (round to nearest, ties to even; the least positive binary32 value
is `2^-149`), and a larger one is not zero.  The rounding of a product that
is not zero is outside the model. -/
def float_mul (a b : K) : K := if |a * b| ≤ 1 / 2 ^ 150 then 0 else a * b

/-- Division, `none` when the divisor is zero. -/
def checked_div (a b : K) : Option K := if b = 0 then none else some (a / b)

/-- The call `std::pow(x, y)`, `none` at the pole: a zero base with a
negative exponent. -/
def checked_pow (m : CMath K) (x y : K) : Option K :=
  if x = 0 ∧ y < 0 then none else some (m.pow x y)

/-- Rotor radius, `const float quad_rotor_radius = 0.12` (`quad_control.cpp`,
line 35). -/
def quad_rotor_radius : K := 0.12

/-- Cheeseman compensator of `quad_control.cpp`, lines 80-82: the throttle
divided by `1 - (R / (4 z))^2`. -/
def CheesemanCompensator (throttle_ref z : K) : Option K := do
  let q ← checked_div quad_rotor_radius (4 * z)
  checked_div throttle_ref (1.0 - q ^ 2)

namespace Compensators

/-- The values that `compensators.cpp` reads from the YAML file (lines
6-11). -/
structure Constants (K : Type) where
  quad_rotor_radius : K
  quad_rotor_distance : K
  sanchez_constant : K
  rho_air : K
  quadcopter_mass : K
  g : K

/-- Hover thrust of one rotor, line 13. -/
def T_h (k : Constants K) : K := k.quadcopter_mass * k.g / 4

/-- Cheeseman compensator of `compensators.cpp`, lines 15-18. -/
def CheesemanCompensator (k : Constants K) (thrust_ref z : K) : Option K := do
  let q ← checked_div k.quad_rotor_radius (4 * z)
  pure (thrust_ref * (1.0 - q ^ 2))

/-- Hayden compensator, lines 27-32.  The divisor `z * z` is a product of
two `float` values. -/
def HaydenCompensator (m : CMath K) (k : Constants K) (thrust_ref z : K) : Option K := do
  let q ← checked_div (0.03794 * 4 * k.quad_rotor_radius * k.quad_rotor_radius)
    (float_mul z z)
  let w ← checked_pow m (0.9926 + q) (-2.0 / 3.0)
  pure (thrust_ref * w)

/-- Hover-induced velocity `v_h`, lines 55 and 62. -/
def v_h (m : CMath K) (k : Constants K) : Option K := do
  let q ← checked_div (T_h k) (2 * k.rho_air * m.pi * k.quad_rotor_radius)
  pure (m.sqrt q)

/-- Cheeseman compensator with forward speed, lines 53-57. -/
def CheesemanDynamicCompensator (m : CMath K) (k : Constants K) (thrust_ref z v : K) :
    Option K := do
  let v_h ← v_h m k
  let q ← checked_div k.quad_rotor_radius (4 * z)
  let r ← checked_div v v_h
  let w ← checked_div (q ^ 2) (1 + r ^ 2)
  pure (thrust_ref * (1.0 - w))

/-- Kan compensator with forward speed, lines 60-64.  The coefficient
`(50 / 3)` is a quotient of two `int` literals. -/
def KanDynamicCompensator (m : CMath K) (k : Constants K) (thrust_ref z v : K) :
    Option K := do
  let v_h ← v_h m k
  let r ← checked_div v v_h
  let q ← checked_div (3 * k.quad_rotor_radius) (25 * z)
  let w ← checked_div (1 + ((50 / 3 : ℤ) : K) * r ^ 3) (1 - q)
  pure (thrust_ref * w)

end Compensators

/-! ## Theorems -/

section ThrustToThrottle

theorem max_thrust_pos : (0 : K) < max_thrust := by
  unfold max_thrust; norm_num

/-- The linear branch is taken exactly on `0 ≤ thrust ≤ max_thrust`. -/
theorem thrust_to_throttle_linear (thrust : K) (h0 : 0 ≤ thrust)
    (h1 : thrust ≤ max_thrust) :
    thrust_to_throttle thrust = 0.02394 * thrust + 0.1644 := by
  unfold thrust_to_throttle
  rw [if_neg (not_lt.mpr h1), if_neg (not_lt.mpr h0)]

/-- The result is never negative and never above the value of the linear
map at `max_thrust`. -/
theorem thrust_to_throttle_range (thrust : K) :
    0 ≤ thrust_to_throttle thrust ∧
      thrust_to_throttle thrust ≤ 0.02394 * max_thrust + 0.1644 := by
  unfold thrust_to_throttle max_thrust
  split_ifs with h1 h2
  · norm_num
  · norm_num
  · have h1 := not_lt.mp h1
    have h2 := not_lt.mp h2
    constructor <;> linarith

/-- The result is above 1 exactly on the part of the linear branch between
`0.8356 / 0.02394` and `max_thrust`. -/
theorem thrust_to_throttle_gt_one_iff (thrust : K) :
    1 < thrust_to_throttle thrust ↔ 0.8356 / 0.02394 < thrust ∧ thrust ≤ max_thrust := by
  have hc : (0 : K) < 0.02394 := by norm_num
  unfold thrust_to_throttle
  split_ifs with h1 h2
  · constructor
    · intro h; exact absurd h (lt_irrefl 1)
    · intro h; exact absurd h1 (not_lt.mpr h.2)
  · constructor
    · intro h; exact absurd h (by norm_num)
    · intro h
      have : (0 : K) < 0.8356 / 0.02394 := by norm_num
      exact absurd (lt_trans this h.1) (not_lt.mpr (le_of_lt h2))
  · rw [div_lt_iff₀ hc]
    constructor
    · intro h; exact ⟨by linarith, not_lt.mp h1⟩
    · intro h; linarith [h.1]

/-- C1: at thrust 35, below `max_thrust`, the code takes the linear branch
and returns 1.0023, which is outside the interval `[0, 1]`. -/
theorem thrust_to_throttle_exceeds_one :
    thrust_to_throttle (35 : ℚ) = 1.0023 ∧
      ¬ (0 ≤ thrust_to_throttle (35 : ℚ) ∧ thrust_to_throttle (35 : ℚ) ≤ 1) := by
  have h : thrust_to_throttle (35 : ℚ) = 1.0023 := by
    rw [thrust_to_throttle_linear 35 (by norm_num) (by unfold max_thrust; norm_num)]
    norm_num
  refine ⟨h, ?_⟩
  rw [h]; norm_num

/-- C2: at `thrust = max_thrust`, which the claim includes, the comparison
`thrust > max_thrust` is false, the code takes the linear branch and returns
`0.02394 * 35.9056 + 0.1644 = 1.023980064`, which is neither 1 nor a value
of the interval `[0, 1]`. -/
theorem thrust_to_throttle_at_max_ne_one :
    (max_thrust : ℚ) ≥ max_thrust ∧
    thrust_to_throttle (max_thrust : ℚ) = 1.023980064 ∧
    thrust_to_throttle (max_thrust : ℚ) ≠ 1 ∧
    ¬ (thrust_to_throttle (max_thrust : ℚ) ≤ 1) := by
  have h : thrust_to_throttle (max_thrust : ℚ) = 1.023980064 := by
    rw [thrust_to_throttle_linear _ (le_of_lt max_thrust_pos) (le_refl _)]
    unfold max_thrust; norm_num
  refine ⟨le_refl _, h, ?_, ?_⟩
  · rw [h]; norm_num
  · rw [h]; norm_num

/-- Above the threshold: for every thrust strictly above `max_thrust` the
upper early return gives exactly 1. -/
theorem thrust_to_throttle_above_max (thrust : K) (h : thrust > max_thrust) :
    thrust_to_throttle thrust = 1 := by
  unfold thrust_to_throttle
  rw [if_pos h]

theorem thrust_to_throttle_above_max_witness :
    (36 : ℚ) > max_thrust ∧ thrust_to_throttle (36 : ℚ) = 1 :=
  ⟨by unfold max_thrust; norm_num,
   thrust_to_throttle_above_max 36 (by unfold max_thrust; norm_num)⟩

/-- C3: for every negative thrust the result is 0; on `[0, max_thrust]` the
result is exactly `0.02394 * thrust + 0.1644`; and the function is
monotonically non-decreasing on that interval. -/
theorem thrust_to_throttle_below_and_linear (a b : K) :
    (a < 0 → thrust_to_throttle a = 0) ∧
    (0 ≤ a → a ≤ max_thrust →
      thrust_to_throttle a = 0.02394 * a + 0.1644) ∧
    (0 ≤ a → a ≤ b → b ≤ max_thrust →
      thrust_to_throttle a ≤ thrust_to_throttle b) := by
  refine ⟨?_, thrust_to_throttle_linear a, ?_⟩
  · intro ha
    unfold thrust_to_throttle
    rw [if_neg (not_lt.mpr (le_of_lt (lt_trans ha max_thrust_pos))), if_pos ha]
  · intro h0 hab hb
    rw [thrust_to_throttle_linear a h0 (le_trans hab hb),
      thrust_to_throttle_linear b (le_trans h0 hab) hb]
    have : (0 : K) ≤ 0.02394 := by norm_num
    have := mul_le_mul_of_nonneg_left hab this
    linarith

theorem thrust_to_throttle_below_and_linear_witness :
    thrust_to_throttle (-1 : ℚ) = 0 ∧
    thrust_to_throttle (10 : ℚ) = 0.02394 * 10 + 0.1644 ∧
    thrust_to_throttle (10 : ℚ) ≤ thrust_to_throttle (20 : ℚ) :=
  ⟨(thrust_to_throttle_below_and_linear (-1 : ℚ) 0).1 (by norm_num),
   (thrust_to_throttle_below_and_linear (10 : ℚ) 20).2.1 (by norm_num)
     (by unfold max_thrust; norm_num),
   (thrust_to_throttle_below_and_linear (10 : ℚ) 20).2.2 (by norm_num)
     (by norm_num) (by unfold max_thrust; norm_num)⟩

end ThrustToThrottle

section TrajectoryGenerator

/-- Takeoff phase: for `0 < t ≤ 15` only the first `if` fires. -/
theorem trajectory_generator_of_takeoff (t : K) (a : TrajectoryArgs K)
    (h0 : 0 < t) (h1 : t ≤ 15) :
    trajectory_generator t a = ⟨a.pos, ⟨0, 0, 2.1⟩, 0⟩ := by
  have h2 : ¬ (t > 15 ∧ t ≤ 45) := fun h => absurd h.1 (not_lt.mpr h1)
  have h3 : ¬ t > 45 := by
    intro h; have : (15 : K) < 45 := by norm_num
    exact absurd (lt_trans this h) (not_lt.mpr h1)
  unfold trajectory_generator
  simp only [if_pos (And.intro h0 h1), if_neg h2, if_neg h3]
  norm_num

/-- Hold phase: for `15 < t ≤ 45` only the second `if` fires. -/
theorem trajectory_generator_of_hold (t : K) (a : TrajectoryArgs K)
    (h0 : 15 < t) (h1 : t ≤ 45) :
    trajectory_generator t a = ⟨a.pos, ⟨0, 0, 1.1⟩, 0⟩ := by
  have h2 : ¬ (t > 0 ∧ t ≤ 15) := fun h => absurd h0 (not_lt.mpr h.2)
  have h3 : ¬ t > 45 := not_lt.mpr h1
  unfold trajectory_generator
  simp only [if_pos (And.intro h0 h1), if_neg h2, if_neg h3]
  norm_num

/-- Land phase: for `45 < t` only the third `if` fires. -/
theorem trajectory_generator_of_land (t : K) (a : TrajectoryArgs K) (h0 : 45 < t) :
    trajectory_generator t a = ⟨a.pos, ⟨a.pos.x, a.pos.y, 0⟩, 0⟩ := by
  have h15 : (15 : K) < t := lt_trans (by norm_num) h0
  have h2 : ¬ (t > 0 ∧ t ≤ 15) := fun h => absurd h15 (not_lt.mpr h.2)
  have h3 : ¬ (t > 15 ∧ t ≤ 45) := fun h => absurd h0 (not_lt.mpr h.2)
  unfold trajectory_generator
  simp only [if_pos h0, if_neg h2, if_neg h3]
  norm_num

/-- No phase: for `t ≤ 0` no `if` fires and the arguments come back
unchanged. -/
theorem trajectory_generator_of_nonpos (t : K) (a : TrajectoryArgs K) (h0 : t ≤ 0) :
    trajectory_generator t a = a := by
  have h1 : ¬ (t > 0 ∧ t ≤ 15) := fun h => absurd h.1 (not_lt.mpr h0)
  have h2 : ¬ (t > 15 ∧ t ≤ 45) :=
    fun h => absurd (lt_trans (by norm_num : (0 : K) < 15) h.1) (not_lt.mpr h0)
  have h3 : ¬ t > 45 :=
    fun h => absurd (lt_trans (by norm_num : (0 : K) < 45) h) (not_lt.mpr h0)
  unfold trajectory_generator
  simp only [if_neg h1, if_neg h2, if_neg h3]

/-- The call never writes to `pos`. -/
theorem trajectory_generator_pos (t : K) (a : TrajectoryArgs K) :
    (trajectory_generator t a).pos = a.pos := by
  unfold trajectory_generator
  split_ifs <;> rfl

/-- C4: for every current position and every prior `pos_ref`, `yaw_ref`:
with `0 < t ≤ 15` the call sets `pos_ref = (0, 0, 2.1)` and `yaw_ref = 0`,
and with `15 < t ≤ 45` it sets `pos_ref = (0, 0, 1.1)` and `yaw_ref = 0`. -/
theorem trajectory_generator_takeoff_hold (t : K) (pos pos_ref : Vector3 K) (yaw_ref : K) :
    (0 < t → t ≤ 15 →
      (trajectory_generator t ⟨pos, pos_ref, yaw_ref⟩).pos_ref = ⟨0, 0, 2.1⟩ ∧
      (trajectory_generator t ⟨pos, pos_ref, yaw_ref⟩).yaw_ref = 0) ∧
    (15 < t → t ≤ 45 →
      (trajectory_generator t ⟨pos, pos_ref, yaw_ref⟩).pos_ref = ⟨0, 0, 1.1⟩ ∧
      (trajectory_generator t ⟨pos, pos_ref, yaw_ref⟩).yaw_ref = 0) := by
  constructor
  · intro h0 h1
    rw [trajectory_generator_of_takeoff t _ h0 h1]
    exact ⟨rfl, rfl⟩
  · intro h0 h1
    rw [trajectory_generator_of_hold t _ h0 h1]
    exact ⟨rfl, rfl⟩

theorem trajectory_generator_takeoff_hold_witness :
    ((trajectory_generator (10 : ℚ) ⟨⟨3, 4, 5⟩, ⟨6, 7, 8⟩, 9⟩).pos_ref = ⟨0, 0, 2.1⟩ ∧
      (trajectory_generator (10 : ℚ) ⟨⟨3, 4, 5⟩, ⟨6, 7, 8⟩, 9⟩).yaw_ref = 0) ∧
    ((trajectory_generator (30 : ℚ) ⟨⟨3, 4, 5⟩, ⟨6, 7, 8⟩, 9⟩).pos_ref = ⟨0, 0, 1.1⟩ ∧
      (trajectory_generator (30 : ℚ) ⟨⟨3, 4, 5⟩, ⟨6, 7, 8⟩, 9⟩).yaw_ref = 0) :=
  ⟨(trajectory_generator_takeoff_hold (10 : ℚ) ⟨3, 4, 5⟩ ⟨6, 7, 8⟩ 9).1
      (by norm_num) (by norm_num),
   (trajectory_generator_takeoff_hold (30 : ℚ) ⟨3, 4, 5⟩ ⟨6, 7, 8⟩ 9).2
      (by norm_num) (by norm_num)⟩

/-- C5: for every `t > 45` and every current position, the call sets
`pos_ref.x = pos.x`, `pos_ref.y = pos.y`, `pos_ref.z = 0` and `yaw_ref = 0`,
whatever `pos_ref` and `yaw_ref` were before. -/
theorem trajectory_generator_land_follows_pos (t : K) (pos pos_ref : Vector3 K)
    (yaw_ref : K) (h : t > 45) :
    (trajectory_generator t ⟨pos, pos_ref, yaw_ref⟩).pos_ref.x = pos.x ∧
    (trajectory_generator t ⟨pos, pos_ref, yaw_ref⟩).pos_ref.y = pos.y ∧
    (trajectory_generator t ⟨pos, pos_ref, yaw_ref⟩).pos_ref.z = 0 ∧
    (trajectory_generator t ⟨pos, pos_ref, yaw_ref⟩).yaw_ref = 0 := by
  rw [trajectory_generator_of_land t _ h]
  exact ⟨rfl, rfl, rfl, rfl⟩

theorem trajectory_generator_land_follows_pos_witness :
    (50 : ℚ) > 45 ∧
    (trajectory_generator (50 : ℚ) ⟨⟨3, 4, 5⟩, ⟨0, 0, 1.1⟩, 9⟩).pos_ref.x = 3 ∧
    (trajectory_generator (50 : ℚ) ⟨⟨3, 4, 5⟩, ⟨0, 0, 1.1⟩, 9⟩).pos_ref.y = 4 ∧
    (trajectory_generator (50 : ℚ) ⟨⟨3, 4, 5⟩, ⟨0, 0, 1.1⟩, 9⟩).pos_ref.z = 0 ∧
    (trajectory_generator (50 : ℚ) ⟨⟨3, 4, 5⟩, ⟨0, 0, 1.1⟩, 9⟩).yaw_ref = 0 :=
  ⟨by norm_num,
   trajectory_generator_land_follows_pos (50 : ℚ) ⟨3, 4, 5⟩ ⟨0, 0, 1.1⟩ 9 (by norm_num)⟩

/-- C6 fails at `t = 0`: no phase matches, so the call returns the prior
`pos_ref` and `yaw_ref`, and two different prior values give two different
results for the same `t` and `pos`. -/
theorem trajectory_generator_at_zero_keeps_prior :
    (trajectory_generator (0 : ℚ) ⟨⟨0, 0, 0⟩, ⟨1, 2, 3⟩, 4⟩).pos_ref = ⟨1, 2, 3⟩ ∧
    (trajectory_generator (0 : ℚ) ⟨⟨0, 0, 0⟩, ⟨0, 0, 0⟩, 0⟩).pos_ref = ⟨0, 0, 0⟩ ∧
    (trajectory_generator (0 : ℚ) ⟨⟨0, 0, 0⟩, ⟨1, 2, 3⟩, 4⟩).pos_ref ≠
      (trajectory_generator (0 : ℚ) ⟨⟨0, 0, 0⟩, ⟨0, 0, 0⟩, 0⟩).pos_ref ∧
    (trajectory_generator (0 : ℚ) ⟨⟨0, 0, 0⟩, ⟨1, 2, 3⟩, 4⟩).yaw_ref ≠
      (trajectory_generator (0 : ℚ) ⟨⟨0, 0, 0⟩, ⟨0, 0, 0⟩, 0⟩).yaw_ref := by
  rw [trajectory_generator_of_nonpos (0 : ℚ) _ (le_refl 0),
    trajectory_generator_of_nonpos (0 : ℚ) _ (le_refl 0)]
  refine ⟨rfl, rfl, ?_, ?_⟩
  · intro h
    have := congrArg Vector3.x h
    norm_num at this
  · norm_num

/-- C6 (amended): for every `t > 0` and every current position, any two
prior values of `pos_ref` and `yaw_ref` give the same `pos_ref` and
`yaw_ref` after the call. -/
theorem trajectory_generator_ignores_prior (t : K) (pos pos_ref1 pos_ref2 : Vector3 K)
    (yaw_ref1 yaw_ref2 : K) (h : 0 < t) :
    (trajectory_generator t ⟨pos, pos_ref1, yaw_ref1⟩).pos_ref =
      (trajectory_generator t ⟨pos, pos_ref2, yaw_ref2⟩).pos_ref ∧
    (trajectory_generator t ⟨pos, pos_ref1, yaw_ref1⟩).yaw_ref =
      (trajectory_generator t ⟨pos, pos_ref2, yaw_ref2⟩).yaw_ref := by
  rcases le_or_lt t 15 with h15 | h15
  · rw [trajectory_generator_of_takeoff t _ h h15, trajectory_generator_of_takeoff t _ h h15]
    exact ⟨rfl, rfl⟩
  · rcases le_or_lt t 45 with h45 | h45
    · rw [trajectory_generator_of_hold t _ h15 h45, trajectory_generator_of_hold t _ h15 h45]
      exact ⟨rfl, rfl⟩
    · rw [trajectory_generator_of_land t _ h45, trajectory_generator_of_land t _ h45]
      exact ⟨rfl, rfl⟩

theorem trajectory_generator_ignores_prior_witness :
    (0 : ℚ) < 50 ∧
    (trajectory_generator (50 : ℚ) ⟨⟨3, 4, 5⟩, ⟨1, 2, 3⟩, 4⟩).pos_ref =
      (trajectory_generator (50 : ℚ) ⟨⟨3, 4, 5⟩, ⟨0, 0, 0⟩, 0⟩).pos_ref ∧
    (trajectory_generator (50 : ℚ) ⟨⟨3, 4, 5⟩, ⟨1, 2, 3⟩, 4⟩).yaw_ref =
      (trajectory_generator (50 : ℚ) ⟨⟨3, 4, 5⟩, ⟨0, 0, 0⟩, 0⟩).yaw_ref :=
  ⟨by norm_num,
   trajectory_generator_ignores_prior (50 : ℚ) ⟨3, 4, 5⟩ ⟨1, 2, 3⟩ ⟨0, 0, 0⟩ 4 0 (by norm_num)⟩

end TrajectoryGenerator

section PositionStage

/-- With `-down ≤ up` the two `if` statements of `constrain` compute the
clamp `max (-down) (min v up)`. -/
theorem constrain_eq_max_min (v up down : K) (h : -down ≤ up) :
    constrain v up down = max (-down) (min v up) := by
  unfold constrain
  rcases lt_or_le up v with hv | hv
  · simp only [gt_iff_lt, if_pos hv, if_neg (not_lt.mpr h), min_eq_right (le_of_lt hv),
      max_eq_right h]
  · simp only [gt_iff_lt, if_neg (not_lt.mpr hv), min_eq_left hv]
    rcases lt_or_le v (-down) with hd | hd
    · rw [if_pos hd, max_eq_left (le_of_lt hd)]
    · rw [if_neg (not_lt.mpr hd), max_eq_right hd]

/-- With `-down ≤ up` the result of `constrain` lies in `[-down, up]`. -/
theorem constrain_mem (v up down : K) (h : -down ≤ up) :
    -down ≤ constrain v up down ∧ constrain v up down ≤ up := by
  rw [constrain_eq_max_min v up down h]
  exact ⟨le_max_left _ _, max_le h (min_le_right _ _)⟩

/-- A value inside `[-down, up]` passes through `constrain` unchanged. -/
theorem constrain_of_mem (v up down : K) (h0 : -down ≤ v) (h1 : v ≤ up) :
    constrain v up down = v := by
  rw [constrain_eq_max_min v up down (le_trans h0 h1), min_eq_left h1, max_eq_right h0]

/-- A value of magnitude above `m > 0` leaves `constrain` with magnitude
exactly `m` and its sign unchanged. -/
theorem constrain_of_abs_gt (v m : K) (hm : 0 < m) (hv : m < |v|) :
    |constrain v m m| = m ∧ SignType.sign (constrain v m m) = SignType.sign v := by
  have hneg : -m ≤ m := by linarith
  rw [constrain_eq_max_min v m m hneg]
  rcases lt_abs.mp hv with h | h
  · have hpos : 0 < v := lt_trans hm h
    rw [min_eq_right (le_of_lt h), max_eq_right hneg, abs_of_pos hm, sign_pos hm, sign_pos hpos]
    exact ⟨rfl, rfl⟩
  · have hlt : v < -m := by linarith
    have hvneg : v < 0 := by linarith
    have hmneg : -m < 0 := by linarith
    rw [min_eq_left (by linarith : v ≤ m), max_eq_left (le_of_lt hlt), abs_of_neg hmneg,
      sign_neg hmneg, sign_neg hvneg]
    exact ⟨neg_neg m, rfl⟩

/-- C7: with all three velocity limits positive, after a tick the clamped
`vel_ref` satisfies `-max_vel_XY ≤ vel_ref.x ≤ max_vel_XY`,
`-max_vel_XY ≤ vel_ref.y ≤ max_vel_XY` and
`-max_vel_Z_DOWN ≤ vel_ref.z ≤ max_vel_Z_UP`, for every gain, sample, tick
index and prior state. -/
theorem vel_ref_within_limits (p : Params K) (i : ℤ) (s : Sample K) (c : ControlState K)
    (hXY : 0 < p.max_vel_XY) (hUp : 0 < p.max_vel_Z_UP) (hDown : 0 < p.max_vel_Z_DOWN) :
    (-p.max_vel_XY ≤ (control_step p i s c).vel_ref.x ∧
      (control_step p i s c).vel_ref.x ≤ p.max_vel_XY) ∧
    (-p.max_vel_XY ≤ (control_step p i s c).vel_ref.y ∧
      (control_step p i s c).vel_ref.y ≤ p.max_vel_XY) ∧
    (-p.max_vel_Z_DOWN ≤ (control_step p i s c).vel_ref.z ∧
      (control_step p i s c).vel_ref.z ≤ p.max_vel_Z_UP) :=
  ⟨constrain_mem _ _ _ (by linarith), constrain_mem _ _ _ (by linarith),
   constrain_mem _ _ _ (by linarith)⟩

theorem vel_ref_within_limits_witness :
    (-(2 : ℚ) ≤ (control_step (⟨20, 1, 1, 2, 3, 1, 1, 0, 0, 1, 0, 0⟩ : Params ℚ) 250
        ⟨100, -100, 50, 0, 0, 0, 1, 0, 0, 0⟩ initial_state).vel_ref.x ∧
      (control_step (⟨20, 1, 1, 2, 3, 1, 1, 0, 0, 1, 0, 0⟩ : Params ℚ) 250
        ⟨100, -100, 50, 0, 0, 0, 1, 0, 0, 0⟩ initial_state).vel_ref.x ≤ 2) ∧
    (-(2 : ℚ) ≤ (control_step (⟨20, 1, 1, 2, 3, 1, 1, 0, 0, 1, 0, 0⟩ : Params ℚ) 250
        ⟨100, -100, 50, 0, 0, 0, 1, 0, 0, 0⟩ initial_state).vel_ref.y ∧
      (control_step (⟨20, 1, 1, 2, 3, 1, 1, 0, 0, 1, 0, 0⟩ : Params ℚ) 250
        ⟨100, -100, 50, 0, 0, 0, 1, 0, 0, 0⟩ initial_state).vel_ref.y ≤ 2) ∧
    (-(1 : ℚ) ≤ (control_step (⟨20, 1, 1, 2, 3, 1, 1, 0, 0, 1, 0, 0⟩ : Params ℚ) 250
        ⟨100, -100, 50, 0, 0, 0, 1, 0, 0, 0⟩ initial_state).vel_ref.z ∧
      (control_step (⟨20, 1, 1, 2, 3, 1, 1, 0, 0, 1, 0, 0⟩ : Params ℚ) 250
        ⟨100, -100, 50, 0, 0, 0, 1, 0, 0, 0⟩ initial_state).vel_ref.z ≤ 3) :=
  vel_ref_within_limits (⟨20, 1, 1, 2, 3, 1, 1, 0, 0, 1, 0, 0⟩ : Params ℚ) 250
    ⟨100, -100, 50, 0, 0, 0, 1, 0, 0, 0⟩ initial_state
    (by norm_num) (by norm_num) (by norm_num)

/-- C8: with `max_vel_XY > 0`, on each horizontal axis the position stage
takes `pos_p_error = pos_ref - pos`, and the clamped `vel_ref` component is
`max (-max_vel_XY) (min (P_pos_XY * error) max_vel_XY)`: when the unclamped
value exceeds `max_vel_XY` in magnitude the component has magnitude exactly
`max_vel_XY` and the sign of the unclamped value, and when the unclamped
value is in `[-max_vel_XY, max_vel_XY]` (bounds included) it is unchanged. -/
theorem vel_ref_xy_saturation (p : Params K) (i : ℤ) (s : Sample K) (c : ControlState K)
    (hXY : 0 < p.max_vel_XY) :
    (position_stage p i s c).pos_p_error =
      Vector3.sub (position_stage p i s c).pos_ref s.pos ∧
    ((position_stage p i s c).vel_ref.x =
        max (-p.max_vel_XY)
          (min (p.P_pos_XY * (position_stage p i s c).pos_p_error.x) p.max_vel_XY) ∧
      (p.max_vel_XY < |p.P_pos_XY * (position_stage p i s c).pos_p_error.x| →
        |(position_stage p i s c).vel_ref.x| = p.max_vel_XY ∧
        SignType.sign (position_stage p i s c).vel_ref.x =
          SignType.sign (p.P_pos_XY * (position_stage p i s c).pos_p_error.x)) ∧
      (-p.max_vel_XY ≤ p.P_pos_XY * (position_stage p i s c).pos_p_error.x →
        p.P_pos_XY * (position_stage p i s c).pos_p_error.x ≤ p.max_vel_XY →
        (position_stage p i s c).vel_ref.x =
          p.P_pos_XY * (position_stage p i s c).pos_p_error.x)) ∧
    ((position_stage p i s c).vel_ref.y =
        max (-p.max_vel_XY)
          (min (p.P_pos_XY * (position_stage p i s c).pos_p_error.y) p.max_vel_XY) ∧
      (p.max_vel_XY < |p.P_pos_XY * (position_stage p i s c).pos_p_error.y| →
        |(position_stage p i s c).vel_ref.y| = p.max_vel_XY ∧
        SignType.sign (position_stage p i s c).vel_ref.y =
          SignType.sign (p.P_pos_XY * (position_stage p i s c).pos_p_error.y)) ∧
      (-p.max_vel_XY ≤ p.P_pos_XY * (position_stage p i s c).pos_p_error.y →
        p.P_pos_XY * (position_stage p i s c).pos_p_error.y ≤ p.max_vel_XY →
        (position_stage p i s c).vel_ref.y =
          p.P_pos_XY * (position_stage p i s c).pos_p_error.y)) := by
  have hneg : -p.max_vel_XY ≤ p.max_vel_XY := by linarith
  have hpos : (position_stage p i s c).pos_p_error =
      Vector3.sub (position_stage p i s c).pos_ref s.pos := by
    unfold position_stage
    simp only [trajectory_generator_pos]
  exact ⟨hpos,
    ⟨constrain_eq_max_min _ _ _ hneg, constrain_of_abs_gt _ _ hXY,
      constrain_of_mem _ _ _⟩,
    ⟨constrain_eq_max_min _ _ _ hneg, constrain_of_abs_gt _ _ hXY,
      constrain_of_mem _ _ _⟩⟩

theorem vel_ref_xy_saturation_witness :
    (0 : ℚ) < 2 ∧
    |(position_stage (⟨20, 1, 1, 2, 3, 1, 1, 0, 0, 1, 0, 0⟩ : Params ℚ) 250
        ⟨100, 1, 0, 0, 0, 0, 1, 0, 0, 0⟩ initial_state).vel_ref.x| = 2 ∧
    SignType.sign (position_stage (⟨20, 1, 1, 2, 3, 1, 1, 0, 0, 1, 0, 0⟩ : Params ℚ) 250
        ⟨100, 1, 0, 0, 0, 0, 1, 0, 0, 0⟩ initial_state).vel_ref.x =
      SignType.sign ((1 : ℚ) * (position_stage (⟨20, 1, 1, 2, 3, 1, 1, 0, 0, 1, 0, 0⟩ : Params ℚ)
        250 ⟨100, 1, 0, 0, 0, 0, 1, 0, 0, 0⟩ initial_state).pos_p_error.x) :=
  ⟨by norm_num,
   (vel_ref_xy_saturation (⟨20, 1, 1, 2, 3, 1, 1, 0, 0, 1, 0, 0⟩ : Params ℚ) 250
      ⟨100, 1, 0, 0, 0, 0, 1, 0, 0, 0⟩ initial_state (by norm_num)).2.1.2.1
      (by
        norm_num [position_stage, trajectory_generator, tick_time, Sample.pos,
          Vector3.sub, initial_state])⟩

end PositionStage

section ControlLoop

/-- One tick adds the velocity error of that tick times `T_s_sec` to the
accumulator. -/
theorem control_step_vel_i_error (p : Params K) (i : ℤ) (s : Sample K) (c : ControlState K) :
    (control_step p i s c).vel_i_error =
      Vector3.add c.vel_i_error
        (Vector3.scale (Vector3.sub (position_stage p i s c).vel_ref s.vel) (T_s_sec p)) :=
  rfl

/-- The accumulator after the loop is the accumulator before it plus
`T_s_sec` times the sum of the velocity errors, on every axis. -/
theorem control_loop_vel_i_error (p : Params K) (samples : List (Sample K)) :
    ∀ (i : ℤ) (c : ControlState K),
      (control_loop p samples i c).vel_i_error.x =
        c.vel_i_error.x +
          T_s_sec p * ((velocity_errors p samples i c).map Vector3.x).sum ∧
      (control_loop p samples i c).vel_i_error.y =
        c.vel_i_error.y +
          T_s_sec p * ((velocity_errors p samples i c).map Vector3.y).sum ∧
      (control_loop p samples i c).vel_i_error.z =
        c.vel_i_error.z +
          T_s_sec p * ((velocity_errors p samples i c).map Vector3.z).sum := by
  induction samples with
  | nil =>
    intro i c
    simp [control_loop, velocity_errors]
  | cons s ss ih =>
    intro i c
    obtain ⟨hx, hy, hz⟩ := ih (i + 1) (control_step p i s c)
    simp only [control_loop, velocity_errors, List.map_cons, List.sum_cons]
    rw [hx, hy, hz, control_step_vel_i_error]
    simp only [Vector3.add, Vector3.scale, Vector3.sub]
    refine ⟨?_, ?_, ?_⟩ <;> ring

theorem velocity_errors_length (p : Params K) (samples : List (Sample K)) :
    ∀ (i : ℤ) (c : ControlState K),
      (velocity_errors p samples i c).length = samples.length := by
  induction samples with
  | nil => intro i c; rfl
  | cons s ss ih => intro i c; simp [velocity_errors, ih]

/-- C9: starting from the initial state, where `vel_i_error = 0`, after the
ticks of any list of samples the accumulator equals `dt` times the sum of
the velocity errors `vel_ref - vel` of those ticks, on every axis, where the
tick duration `dt` is `T_s_sec = T_s / 1000`; there is one velocity error
per tick, and every tick, from any state, changes each component of the
accumulator by adding that component of the tick's velocity error times
`T_s / 1000`, with no clamp. -/
theorem vel_i_error_is_scaled_sum (p : Params K) (samples : List (Sample K)) :
    T_s_sec p = (p.T_s : K) / 1000 ∧
    ((control_loop p samples 0 initial_state).vel_i_error.x =
        (p.T_s : K) / 1000 *
          ((velocity_errors p samples 0 initial_state).map Vector3.x).sum ∧
      (control_loop p samples 0 initial_state).vel_i_error.y =
        (p.T_s : K) / 1000 *
          ((velocity_errors p samples 0 initial_state).map Vector3.y).sum ∧
      (control_loop p samples 0 initial_state).vel_i_error.z =
        (p.T_s : K) / 1000 *
          ((velocity_errors p samples 0 initial_state).map Vector3.z).sum) ∧
    (velocity_errors p samples 0 initial_state).length = samples.length ∧
    (∀ (i : ℤ) (s : Sample K) (c : ControlState K),
      (control_step p i s c).vel_p_error =
        ⟨(control_step p i s c).vel_ref.x - s.vel.x,
         (control_step p i s c).vel_ref.y - s.vel.y,
         (control_step p i s c).vel_ref.z - s.vel.z⟩ ∧
      (control_step p i s c).vel_i_error =
        ⟨c.vel_i_error.x + (control_step p i s c).vel_p_error.x * ((p.T_s : K) / 1000),
         c.vel_i_error.y + (control_step p i s c).vel_p_error.y * ((p.T_s : K) / 1000),
         c.vel_i_error.z + (control_step p i s c).vel_p_error.z * ((p.T_s : K) / 1000)⟩) := by
  have hdt : T_s_sec p = (p.T_s : K) / 1000 := rfl
  refine ⟨hdt, ?_, velocity_errors_length p samples 0 initial_state, fun i s c => ⟨rfl, ?_⟩⟩
  · obtain ⟨hx, hy, hz⟩ := control_loop_vel_i_error p samples 0 initial_state
    rw [hx, hy, hz, hdt]
    simp [initial_state]
  · rw [← hdt]
    rfl

/-- Two ticks at `T_s = 20`: the first at `t = 0` on a sample one metre
below the origin (velocity error 1 on `z`), the second at `t = 0.02` on a
sample at the origin (velocity error 2.1 on `z`); the accumulator is
`0.02 * (1 + 2.1) = 0.062` on `z` and 0 on `x` and `y`. -/
theorem vel_i_error_is_scaled_sum_witness :
    velocity_errors (⟨20, 1, 1, 2, 3, 1, 1, 0, 0, 1, 0, 0⟩ : Params ℚ)
        [⟨0, 0, 1, 0, 0, 0, 1, 0, 0, 0⟩, ⟨0, 0, 0, 0, 0, 0, 1, 0, 0, 0⟩] 0 initial_state =
      [⟨0, 0, 1⟩, ⟨0, 0, 2.1⟩] ∧
    (control_loop (⟨20, 1, 1, 2, 3, 1, 1, 0, 0, 1, 0, 0⟩ : Params ℚ)
        [⟨0, 0, 1, 0, 0, 0, 1, 0, 0, 0⟩, ⟨0, 0, 0, 0, 0, 0, 1, 0, 0, 0⟩] 0
        initial_state).vel_i_error.x = 0 ∧
    (control_loop (⟨20, 1, 1, 2, 3, 1, 1, 0, 0, 1, 0, 0⟩ : Params ℚ)
        [⟨0, 0, 1, 0, 0, 0, 1, 0, 0, 0⟩, ⟨0, 0, 0, 0, 0, 0, 1, 0, 0, 0⟩] 0
        initial_state).vel_i_error.z = 0.062 := by
  have he : velocity_errors (⟨20, 1, 1, 2, 3, 1, 1, 0, 0, 1, 0, 0⟩ : Params ℚ)
      [⟨0, 0, 1, 0, 0, 0, 1, 0, 0, 0⟩, ⟨0, 0, 0, 0, 0, 0, 1, 0, 0, 0⟩] 0 initial_state =
      [⟨0, 0, 1⟩, ⟨0, 0, 2.1⟩] := by
    norm_num [velocity_errors, control_step, velocity_stage, position_stage,
      trajectory_generator, tick_time, T_s_sec, constrain, Sample.pos, Sample.vel,
      Vector3.sub, Vector3.add, Vector3.scale, Vector3.divide, initial_state]
  have h := (vel_i_error_is_scaled_sum (⟨20, 1, 1, 2, 3, 1, 1, 0, 0, 1, 0, 0⟩ : Params ℚ)
    [⟨0, 0, 1, 0, 0, 0, 1, 0, 0, 0⟩, ⟨0, 0, 0, 0, 0, 0, 1, 0, 0, 0⟩]).2.1
  rw [he] at h
  refine ⟨he, ?_, ?_⟩
  · rw [h.1]; norm_num
  · rw [h.2.2]; norm_num

/-- Tick 250 with a period of 20 ms is at `t = 5`. -/
theorem tick_time_250 (p : Params K) (hT : p.T_s = 20) : tick_time p 250 = 5 := by
  unfold tick_time
  rw [hT]
  norm_num

/-- C10: for a sample at the origin with zero velocity and current body
z-axis `(0, 0, 1)`, gains `P_pos_XY = P_pos_Z = P_vel_XY = 1`, any `P_vel_Z`
(1 among them), all I and D gains 0, positive velocity limits and a tick of
20 ms, tick 250 is
at `t = 5` with `pos_ref.z = 2.1` and, whatever the prior controller state,
`vel_ref.z = min (P_pos_Z * 2.1) max_vel_Z_UP`,
`acc_ref.z = P_vel_Z * vel_ref.z - 9.81`, `thrust_ref = acc_ref.z * 1.5` and
the emitted throttle is `thrust_to_throttle thrust_ref`. -/
theorem end_to_end_tick (p : Params K) (s : Sample K) (c : ControlState K)
    (hT : p.T_s = 20)
    (hPposXY : p.P_pos_XY = 1) (hPposZ : p.P_pos_Z = 1)
    (hPvelXY : p.P_vel_XY = 1) (hIvelXY : p.I_vel_XY = 0) (hDvelXY : p.D_vel_XY = 0)
    (hIvelZ : p.I_vel_Z = 0) (hDvelZ : p.D_vel_Z = 0)
    (hXY : 0 < p.max_vel_XY) (hUp : 0 < p.max_vel_Z_UP) (hDown : 0 < p.max_vel_Z_DOWN)
    (hpos : s.pos = ⟨0, 0, 0⟩) (hvel : s.vel = ⟨0, 0, 0⟩)
    (hz_b : s.body_frame_col2 = ⟨0, 0, 1⟩) :
    tick_time p 250 = 5 ∧
    (control_step p 250 s c).pos_ref.z = 2.1 ∧
    (control_step p 250 s c).vel_ref.z = min (p.P_pos_Z * 2.1) p.max_vel_Z_UP ∧
    (control_step p 250 s c).acc_ref.z =
      p.P_vel_Z * (control_step p 250 s c).vel_ref.z - 9.81 ∧
    (thrust_command s (control_step p 250 s c)).thrust_ref =
      (control_step p 250 s c).acc_ref.z * 1.5 ∧
    (thrust_command s (control_step p 250 s c)).thrust_value =
      thrust_to_throttle (thrust_command s (control_step p 250 s c)).thrust_ref := by
  have ht : tick_time p 250 = 5 := tick_time_250 p hT
  have href : trajectory_generator (tick_time p 250) ⟨s.pos, c.pos_ref, c.yaw_ref⟩ =
      ⟨s.pos, ⟨0, 0, 2.1⟩, 0⟩ := by
    rw [ht]
    exact trajectory_generator_of_takeoff 5 _ (by norm_num) (by norm_num)
  have hvz : (position_stage p 250 s c).vel_ref.z = min (p.P_pos_Z * 2.1) p.max_vel_Z_UP := by
    unfold position_stage
    simp only [href]
    simp only [hpos, Vector3.sub, sub_zero]
    rw [constrain_eq_max_min _ _ _ (by linarith), hPposZ]
    apply max_eq_right
    apply le_min <;> norm_num <;> linarith
  have haz : (control_step p 250 s c).acc_ref.z =
      p.P_vel_Z * (control_step p 250 s c).vel_ref.z - 9.81 := by
    simp only [control_step, velocity_stage, hvel, Vector3.sub, hIvelZ, hDvelZ, g]
    ring
  have hax : (control_step p 250 s c).acc_ref.x = 0 := by
    simp only [control_step, velocity_stage, position_stage, href]
    simp only [hpos, hvel, Vector3.sub, hPvelXY, hIvelXY, hDvelXY, hPposXY]
    rw [constrain_of_mem _ _ _ (by norm_num; linarith) (by norm_num; linarith)]
    norm_num
  have hay : (control_step p 250 s c).acc_ref.y = 0 := by
    simp only [control_step, velocity_stage, position_stage, href]
    simp only [hpos, hvel, Vector3.sub, hPvelXY, hIvelXY, hDvelXY, hPposXY]
    rw [constrain_of_mem _ _ _ (by norm_num; linarith) (by norm_num; linarith)]
    norm_num
  refine ⟨ht, ?_, hvz, haz, ?_, rfl⟩
  · show (position_stage p 250 s c).pos_ref.z = 2.1
    unfold position_stage
    simp only [href]
  · simp only [thrust_command, Vector3.dot, hz_b, quadcopter_mass]
    ring

theorem end_to_end_tick_witness :
    tick_time (⟨20, 1, 1, 2, 3, 1, 1, 0, 0, 1, 0, 0⟩ : Params ℚ) 250 = 5 ∧
    (control_step (⟨20, 1, 1, 2, 3, 1, 1, 0, 0, 1, 0, 0⟩ : Params ℚ) 250
      ⟨0, 0, 0, 0, 0, 0, 1, 0, 0, 0⟩ initial_state).pos_ref.z = 2.1 ∧
    (control_step (⟨20, 1, 1, 2, 3, 1, 1, 0, 0, 1, 0, 0⟩ : Params ℚ) 250
      ⟨0, 0, 0, 0, 0, 0, 1, 0, 0, 0⟩ initial_state).vel_ref.z = min ((1 : ℚ) * 2.1) 3 ∧
    (control_step (⟨20, 1, 1, 2, 3, 1, 1, 0, 0, 1, 0, 0⟩ : Params ℚ) 250
      ⟨0, 0, 0, 0, 0, 0, 1, 0, 0, 0⟩ initial_state).acc_ref.z =
      (1 : ℚ) * (control_step (⟨20, 1, 1, 2, 3, 1, 1, 0, 0, 1, 0, 0⟩ : Params ℚ) 250
        ⟨0, 0, 0, 0, 0, 0, 1, 0, 0, 0⟩ initial_state).vel_ref.z - 9.81 ∧
    (thrust_command (⟨0, 0, 0, 0, 0, 0, 1, 0, 0, 0⟩ : Sample ℚ)
      (control_step (⟨20, 1, 1, 2, 3, 1, 1, 0, 0, 1, 0, 0⟩ : Params ℚ) 250
        ⟨0, 0, 0, 0, 0, 0, 1, 0, 0, 0⟩ initial_state)).thrust_ref =
      (control_step (⟨20, 1, 1, 2, 3, 1, 1, 0, 0, 1, 0, 0⟩ : Params ℚ) 250
        ⟨0, 0, 0, 0, 0, 0, 1, 0, 0, 0⟩ initial_state).acc_ref.z * 1.5 ∧
    (thrust_command (⟨0, 0, 0, 0, 0, 0, 1, 0, 0, 0⟩ : Sample ℚ)
      (control_step (⟨20, 1, 1, 2, 3, 1, 1, 0, 0, 1, 0, 0⟩ : Params ℚ) 250
        ⟨0, 0, 0, 0, 0, 0, 1, 0, 0, 0⟩ initial_state)).thrust_value =
      thrust_to_throttle (thrust_command (⟨0, 0, 0, 0, 0, 0, 1, 0, 0, 0⟩ : Sample ℚ)
        (control_step (⟨20, 1, 1, 2, 3, 1, 1, 0, 0, 1, 0, 0⟩ : Params ℚ) 250
          ⟨0, 0, 0, 0, 0, 0, 1, 0, 0, 0⟩ initial_state)).thrust_ref :=
  end_to_end_tick (⟨20, 1, 1, 2, 3, 1, 1, 0, 0, 1, 0, 0⟩ : Params ℚ)
    ⟨0, 0, 0, 0, 0, 0, 1, 0, 0, 0⟩ initial_state rfl rfl rfl rfl rfl rfl rfl rfl
    (by norm_num) (by norm_num) (by norm_num)
    (by norm_num [Sample.pos]) (by norm_num [Sample.vel])
    (by norm_num [Sample.body_frame_col2])

end ControlLoop

section Phases

/-- The three `if` statements of `trajectory_generator`, written with the
three phase conditions, where a later condition is tested only when the
earlier ones are false. -/
theorem trajectory_generator_eq_phases (t : K) (a : TrajectoryArgs K) :
    trajectory_generator t a =
      if takeoff_condition t then ⟨a.pos, ⟨0, 0, 2.1⟩, 0⟩
      else if step_condition t then ⟨a.pos, ⟨0, 0, 1.1⟩, 0⟩
      else if land_condition t then ⟨a.pos, ⟨a.pos.x, a.pos.y, 0⟩, 0⟩
      else a := by
  unfold takeoff_condition step_condition land_condition
  rcases le_or_lt t 0 with h0 | h0
  · rw [trajectory_generator_of_nonpos t a h0]
    have h1 : ¬ (t > 0 ∧ t ≤ 15) := fun h => absurd h.1 (not_lt.mpr h0)
    have h2 : ¬ (t > 15 ∧ t ≤ 45) :=
      fun h => absurd (lt_trans (by norm_num : (0 : K) < 15) h.1) (not_lt.mpr h0)
    have h3 : ¬ t > 45 :=
      fun h => absurd (lt_trans (by norm_num : (0 : K) < 45) h) (not_lt.mpr h0)
    simp [h1, h2, h3]
  · rcases le_or_lt t 15 with h15 | h15
    · rw [trajectory_generator_of_takeoff t a h0 h15]
      simp [h0, h15]
    · have h1 : ¬ (t > 0 ∧ t ≤ 15) := fun h => absurd h15 (not_lt.mpr h.2)
      rcases le_or_lt t 45 with h45 | h45
      · rw [trajectory_generator_of_hold t a h15 h45]
        simp [h1, h15, h45]
      · have h2 : ¬ (t > 15 ∧ t ≤ 45) := fun h => absurd h45 (not_lt.mpr h.2)
        rw [trajectory_generator_of_land t a h45]
        simp [h1, h2, h45]

/-- C15: the three phase conditions of `trajectory_generator` never hold
two at a time, for any `t`, the boundaries 15 and 45 included; for every
`t > 0` one of them holds; at `t = 0` none holds; and the function is the
case distinction over them. -/
theorem phase_conditions_partition (t : K) :
    (¬ (takeoff_condition t = true ∧ step_condition t = true) ∧
      ¬ (takeoff_condition t = true ∧ land_condition t = true) ∧
      ¬ (step_condition t = true ∧ land_condition t = true)) ∧
    (0 < t →
      takeoff_condition t = true ∨ step_condition t = true ∨ land_condition t = true) ∧
    (takeoff_condition (0 : K) = false ∧ step_condition (0 : K) = false ∧
      land_condition (0 : K) = false) ∧
    (∀ a : TrajectoryArgs K, trajectory_generator t a =
      if takeoff_condition t then ⟨a.pos, ⟨0, 0, 2.1⟩, 0⟩
      else if step_condition t then ⟨a.pos, ⟨0, 0, 1.1⟩, 0⟩
      else if land_condition t then ⟨a.pos, ⟨a.pos.x, a.pos.y, 0⟩, 0⟩
      else a) := by
  have h15 : (15 : K) < 45 := by norm_num
  refine ⟨⟨?_, ?_, ?_⟩, ?_, ⟨?_, ?_, ?_⟩, trajectory_generator_eq_phases t⟩
  · simp only [takeoff_condition, step_condition, decide_eq_true_eq]
    rintro ⟨⟨_, h1⟩, ⟨h2, _⟩⟩
    exact absurd h2 (not_lt.mpr h1)
  · simp only [takeoff_condition, land_condition, decide_eq_true_eq]
    rintro ⟨⟨_, h1⟩, h2⟩
    exact absurd (lt_trans h15 h2) (not_lt.mpr h1)
  · simp only [step_condition, land_condition, decide_eq_true_eq]
    rintro ⟨⟨_, h1⟩, h2⟩
    exact absurd h2 (not_lt.mpr h1)
  · intro h0
    simp only [takeoff_condition, step_condition, land_condition, decide_eq_true_eq]
    rcases le_or_lt t 15 with h | h
    · exact Or.inl ⟨h0, h⟩
    · rcases le_or_lt t 45 with h' | h'
      · exact Or.inr (Or.inl ⟨h, h'⟩)
      · exact Or.inr (Or.inr h')
  · simp [takeoff_condition]
  · simp [step_condition]
  · simp [land_condition]

theorem phase_conditions_partition_witness :
    (takeoff_condition (15 : ℚ) = true ∨ step_condition (15 : ℚ) = true ∨
      land_condition (15 : ℚ) = true) ∧
    ¬ (takeoff_condition (15 : ℚ) = true ∧ step_condition (15 : ℚ) = true) ∧
    ¬ (step_condition (45 : ℚ) = true ∧ land_condition (45 : ℚ) = true) :=
  ⟨(phase_conditions_partition (15 : ℚ)).2.1 (by norm_num),
   (phase_conditions_partition (15 : ℚ)).1.1,
   (phase_conditions_partition (45 : ℚ)).1.2.2⟩

/-- C16: for every `t ≤ 0` the call leaves `pos_ref` and `yaw_ref` as they
were passed in, and for every `t` it leaves `pos` as it was passed in. -/
theorem trajectory_generator_frame (t : K) (pos pos_ref : Vector3 K) (yaw_ref : K) :
    (t ≤ 0 →
      (trajectory_generator t ⟨pos, pos_ref, yaw_ref⟩).pos_ref = pos_ref ∧
      (trajectory_generator t ⟨pos, pos_ref, yaw_ref⟩).yaw_ref = yaw_ref) ∧
    (trajectory_generator t ⟨pos, pos_ref, yaw_ref⟩).pos = pos := by
  refine ⟨fun h => ?_, trajectory_generator_pos t _⟩
  rw [trajectory_generator_of_nonpos t _ h]
  exact ⟨rfl, rfl⟩

theorem trajectory_generator_frame_witness :
    ((trajectory_generator (-1 : ℚ) ⟨⟨3, 4, 5⟩, ⟨6, 7, 8⟩, 9⟩).pos_ref = ⟨6, 7, 8⟩ ∧
      (trajectory_generator (-1 : ℚ) ⟨⟨3, 4, 5⟩, ⟨6, 7, 8⟩, 9⟩).yaw_ref = 9) ∧
    (trajectory_generator (50 : ℚ) ⟨⟨3, 4, 5⟩, ⟨6, 7, 8⟩, 9⟩).pos = ⟨3, 4, 5⟩ :=
  ⟨(trajectory_generator_frame (-1 : ℚ) ⟨3, 4, 5⟩ ⟨6, 7, 8⟩ 9).1 (by norm_num),
   (trajectory_generator_frame (50 : ℚ) ⟨3, 4, 5⟩ ⟨6, 7, 8⟩ 9).2⟩

end Phases

section Monotonicity

/-- C17: with `a = 35.5 ≤ b = 36` the code returns 1.01427 for `a`, on the
linear branch, and 1 for `b`, above `max_thrust`: the result decreases. -/
theorem thrust_to_throttle_decreases_at_max :
    (35.5 : ℚ) ≤ 36 ∧
    thrust_to_throttle (35.5 : ℚ) = 1.01427 ∧
    thrust_to_throttle (36 : ℚ) = 1 ∧
    ¬ (thrust_to_throttle (35.5 : ℚ) ≤ thrust_to_throttle (36 : ℚ)) := by
  have ha : thrust_to_throttle (35.5 : ℚ) = 1.01427 := by
    rw [thrust_to_throttle_linear 35.5 (by norm_num) (by unfold max_thrust; norm_num)]
    norm_num
  have hb : thrust_to_throttle (36 : ℚ) = 1 := by
    unfold thrust_to_throttle
    rw [if_pos (by unfold max_thrust; norm_num)]
  refine ⟨by norm_num, ha, hb, ?_⟩
  rw [ha, hb]
  norm_num

end Monotonicity

section VelocityStage

/-- Monotone below the upper early return: for `a ≤ b ≤ max_thrust` the
result does not decrease. -/
theorem thrust_to_throttle_mono_below_max (a b : K) (hab : a ≤ b) (hb : b ≤ max_thrust) :
    thrust_to_throttle a ≤ thrust_to_throttle b := by
  unfold thrust_to_throttle
  rw [if_neg (not_lt.mpr hb), if_neg (not_lt.mpr (le_trans hab hb))]
  split_ifs with h1 h2 h3
  · exact le_refl 0
  · have := not_lt.mp h2
    have hc : (0 : K) ≤ 0.02394 * b := mul_nonneg (by norm_num) this
    have hd : (0 : K) < 0.1644 := by norm_num
    linarith
  · exact absurd (lt_of_le_of_lt hab h3) h1
  · have hc : (0 : K) ≤ 0.02394 := by norm_num
    have := mul_le_mul_of_nonneg_left hab hc
    linarith

/-- The loop run over one more sample: the last tick is a `control_step`
on the state left by the ticks before it. -/
theorem control_loop_append (p : Params K) (ss : List (Sample K)) (s : Sample K) :
    ∀ (i : ℤ) (c : ControlState K),
      control_loop p (ss ++ [s]) i c =
        control_step p (i + ss.length) s (control_loop p ss i c) := by
  induction ss with
  | nil => intro i c; simp [control_loop]
  | cons s0 ss ih =>
    intro i c
    have hi : i + ((s0 :: ss).length : ℤ) = i + 1 + (ss.length : ℤ) := by
      simp only [List.length_cons, Nat.cast_add, Nat.cast_one]
      ring
    rw [hi]
    exact ih (i + 1) (control_step p i s0 c)

/-- The gravity term of line 259 is the only difference between the state
after the velocity controller and the state after the tick. -/
theorem velocity_stage_eq (p : Params K) (vel : Vector3 K) (c : ControlState K) :
    velocity_stage p vel c =
      ⟨(velocity_controller p vel c).pos_ref, (velocity_controller p vel c).vel_ref,
       ⟨(velocity_controller p vel c).acc_ref.x, (velocity_controller p vel c).acc_ref.y,
        (velocity_controller p vel c).acc_ref.z - g⟩,
       (velocity_controller p vel c).yaw_ref, (velocity_controller p vel c).pos_p_error,
       (velocity_controller p vel c).vel_p_error,
       (velocity_controller p vel c).vel_p_error_last,
       (velocity_controller p vel c).vel_i_error,
       (velocity_controller p vel c).vel_d_error⟩ :=
  rfl

/-- C14: in the loop run from the initial state, the tick on sample `s`
after the ticks on `ss` has velocity error `e = vel_ref - vel`, derivative
error `(e - e_prev) / dt` with `e_prev` the velocity error left by the tick
before and `dt` the tick duration `T_s_sec = T_s / 1000`, and on the first
tick `e_prev` is the initial 0 so the derivative error is `e / dt`; the
velocity controller sets `acc_ref = P * e + I * vel_i_error + D * vel_d_error`
with the XY gains on `x` and `y` and the Z gains on `z`, and the tick then
subtracts `g` from `acc_ref.z`. -/
theorem vel_d_error_is_backward_difference (p : Params K) (ss : List (Sample K))
    (s : Sample K) :
    T_s_sec p = (p.T_s : K) / 1000 ∧
    (control_loop p (ss ++ [s]) 0 initial_state).vel_p_error =
      ⟨(control_loop p (ss ++ [s]) 0 initial_state).vel_ref.x - s.vel.x,
       (control_loop p (ss ++ [s]) 0 initial_state).vel_ref.y - s.vel.y,
       (control_loop p (ss ++ [s]) 0 initial_state).vel_ref.z - s.vel.z⟩ ∧
    (control_loop p (ss ++ [s]) 0 initial_state).vel_d_error =
      ⟨((control_loop p (ss ++ [s]) 0 initial_state).vel_p_error.x -
          (control_loop p ss 0 initial_state).vel_p_error.x) / ((p.T_s : K) / 1000),
       ((control_loop p (ss ++ [s]) 0 initial_state).vel_p_error.y -
          (control_loop p ss 0 initial_state).vel_p_error.y) / ((p.T_s : K) / 1000),
       ((control_loop p (ss ++ [s]) 0 initial_state).vel_p_error.z -
          (control_loop p ss 0 initial_state).vel_p_error.z) / ((p.T_s : K) / 1000)⟩ ∧
    (control_loop p [s] 0 initial_state).vel_d_error =
      ⟨(control_loop p [s] 0 initial_state).vel_p_error.x / ((p.T_s : K) / 1000),
       (control_loop p [s] 0 initial_state).vel_p_error.y / ((p.T_s : K) / 1000),
       (control_loop p [s] 0 initial_state).vel_p_error.z / ((p.T_s : K) / 1000)⟩ ∧
    (velocity_controller p s.vel
        (position_stage p ss.length s (control_loop p ss 0 initial_state))).acc_ref =
      ⟨p.P_vel_XY * (control_loop p (ss ++ [s]) 0 initial_state).vel_p_error.x +
         p.I_vel_XY * (control_loop p (ss ++ [s]) 0 initial_state).vel_i_error.x +
         p.D_vel_XY * (control_loop p (ss ++ [s]) 0 initial_state).vel_d_error.x,
       p.P_vel_XY * (control_loop p (ss ++ [s]) 0 initial_state).vel_p_error.y +
         p.I_vel_XY * (control_loop p (ss ++ [s]) 0 initial_state).vel_i_error.y +
         p.D_vel_XY * (control_loop p (ss ++ [s]) 0 initial_state).vel_d_error.y,
       p.P_vel_Z * (control_loop p (ss ++ [s]) 0 initial_state).vel_p_error.z +
         p.I_vel_Z * (control_loop p (ss ++ [s]) 0 initial_state).vel_i_error.z +
         p.D_vel_Z * (control_loop p (ss ++ [s]) 0 initial_state).vel_d_error.z⟩ ∧
    (control_loop p (ss ++ [s]) 0 initial_state).acc_ref =
      ⟨(velocity_controller p s.vel
          (position_stage p ss.length s (control_loop p ss 0 initial_state))).acc_ref.x,
       (velocity_controller p s.vel
          (position_stage p ss.length s (control_loop p ss 0 initial_state))).acc_ref.y,
       (velocity_controller p s.vel
          (position_stage p ss.length s (control_loop p ss 0 initial_state))).acc_ref.z - g⟩ := by
  have hdt : T_s_sec p = (p.T_s : K) / 1000 := rfl
  have h1 : control_loop p (ss ++ [s]) 0 initial_state =
      control_step p ss.length s (control_loop p ss 0 initial_state) := by
    rw [control_loop_append, zero_add]
  have h2 : control_loop p [s] 0 initial_state = control_step p 0 s initial_state := rfl
  rw [h1, h2, ← hdt]
  refine ⟨rfl, rfl, rfl, ?_, rfl, rfl⟩
  simp [control_step, velocity_stage, position_stage, initial_state, Vector3.sub,
    Vector3.divide]

/-- Two ticks at `T_s = 20` with all gains 1: the first at `t = 0` on a
sample one metre below the origin has velocity error `(0, 0, 1)` and
derivative error `(0, 0, 1 / 0.02) = (0, 0, 50)`; the second at `t = 0.02`
on a sample at the origin has velocity error `(0, 0, 2.1)`, derivative
error `(0, 0, (2.1 - 1) / 0.02) = (0, 0, 55)` and integral `(0, 0, 0.062)`,
so the velocity controller gives `acc_ref.z = 2.1 + 0.062 + 55`. -/
theorem vel_d_error_is_backward_difference_witness :
    (control_loop (⟨20, 1, 1, 2, 3, 1, 1, 1, 1, 1, 1, 1⟩ : Params ℚ)
        [⟨0, 0, 1, 0, 0, 0, 1, 0, 0, 0⟩] 0 initial_state).vel_d_error = ⟨0, 0, 50⟩ ∧
    (control_loop (⟨20, 1, 1, 2, 3, 1, 1, 1, 1, 1, 1, 1⟩ : Params ℚ)
        ([⟨0, 0, 1, 0, 0, 0, 1, 0, 0, 0⟩] ++ [⟨0, 0, 0, 0, 0, 0, 1, 0, 0, 0⟩]) 0
        initial_state).vel_d_error = ⟨0, 0, 55⟩ ∧
    (velocity_controller (⟨20, 1, 1, 2, 3, 1, 1, 1, 1, 1, 1, 1⟩ : Params ℚ)
        (⟨0, 0, 0, 0, 0, 0, 1, 0, 0, 0⟩ : Sample ℚ).vel
        (position_stage (⟨20, 1, 1, 2, 3, 1, 1, 1, 1, 1, 1, 1⟩ : Params ℚ)
          ([⟨0, 0, 1, 0, 0, 0, 1, 0, 0, 0⟩] : List (Sample ℚ)).length
          ⟨0, 0, 0, 0, 0, 0, 1, 0, 0, 0⟩
          (control_loop (⟨20, 1, 1, 2, 3, 1, 1, 1, 1, 1, 1, 1⟩ : Params ℚ)
            [⟨0, 0, 1, 0, 0, 0, 1, 0, 0, 0⟩] 0 initial_state))).acc_ref =
      ⟨0, 0, 2.1 + 0.062 + 55⟩ := by
  have h := vel_d_error_is_backward_difference
    (⟨20, 1, 1, 2, 3, 1, 1, 1, 1, 1, 1, 1⟩ : Params ℚ)
    [⟨0, 0, 1, 0, 0, 0, 1, 0, 0, 0⟩] ⟨0, 0, 0, 0, 0, 0, 1, 0, 0, 0⟩
  have e1 : (control_loop (⟨20, 1, 1, 2, 3, 1, 1, 1, 1, 1, 1, 1⟩ : Params ℚ)
      [⟨0, 0, 1, 0, 0, 0, 1, 0, 0, 0⟩] 0 initial_state).vel_p_error = ⟨0, 0, 1⟩ := by
    norm_num [control_loop, control_step, velocity_stage, position_stage,
      trajectory_generator, tick_time, T_s_sec, constrain, Sample.pos, Sample.vel,
      Vector3.sub, Vector3.add, Vector3.scale, Vector3.divide, initial_state]
  have e2 : (control_loop (⟨20, 1, 1, 2, 3, 1, 1, 1, 1, 1, 1, 1⟩ : Params ℚ)
      ([⟨0, 0, 1, 0, 0, 0, 1, 0, 0, 0⟩] ++ [⟨0, 0, 0, 0, 0, 0, 1, 0, 0, 0⟩]) 0
      initial_state).vel_p_error = ⟨0, 0, 2.1⟩ := by
    norm_num [control_loop, control_step, velocity_stage, position_stage,
      trajectory_generator, tick_time, T_s_sec, constrain, Sample.pos, Sample.vel,
      Vector3.sub, Vector3.add, Vector3.scale, Vector3.divide, initial_state]
  have i2 : (control_loop (⟨20, 1, 1, 2, 3, 1, 1, 1, 1, 1, 1, 1⟩ : Params ℚ)
      ([⟨0, 0, 1, 0, 0, 0, 1, 0, 0, 0⟩] ++ [⟨0, 0, 0, 0, 0, 0, 1, 0, 0, 0⟩]) 0
      initial_state).vel_i_error = ⟨0, 0, 0.062⟩ := by
    norm_num [control_loop, control_step, velocity_stage, position_stage,
      trajectory_generator, tick_time, T_s_sec, constrain, Sample.pos, Sample.vel,
      Vector3.sub, Vector3.add, Vector3.scale, Vector3.divide, initial_state]
  have d1 := (vel_d_error_is_backward_difference
    (⟨20, 1, 1, 2, 3, 1, 1, 1, 1, 1, 1, 1⟩ : Params ℚ)
    [] ⟨0, 0, 1, 0, 0, 0, 1, 0, 0, 0⟩).2.2.2.1
  have d2 := h.2.2.1
  have a2 := h.2.2.2.2.1
  rw [e1] at d1
  rw [e2, e1] at d2
  rw [e2, i2, d2] at a2
  refine ⟨?_, ?_, ?_⟩
  · rw [d1]; norm_num
  · rw [d2]; norm_num
  · rw [a2]; norm_num

end VelocityStage

section CompensatorLemmas

theorem checked_div_of_ne (a b : K) (h : b ≠ 0) : checked_div a b = some (a / b) := by
  unfold checked_div
  rw [if_neg h]

theorem checked_div_zero (a : K) : checked_div a 0 = none := by
  unfold checked_div
  rw [if_pos rfl]

theorem checked_pow_of_pos (m : CMath K) (x y : K) (h : 0 < x) :
    checked_pow m x y = some (m.pow x y) := by
  unfold checked_pow
  rw [if_neg (fun hx => absurd hx.1 (ne_of_gt h))]

/-- The Cheeseman compensator of `quad_control.cpp` for `z ≠ 0`: one more
division, by `1 - (R / (4 z))^2`. -/
theorem CheesemanCompensator_eq_div (throttle_ref z : K) (hz : z ≠ 0) :
    CheesemanCompensator throttle_ref z =
      checked_div throttle_ref (1 - (quad_rotor_radius / (4 * z)) ^ 2) := by
  have h4 : (4 : K) * z ≠ 0 := mul_ne_zero (by norm_num) hz
  unfold CheesemanCompensator
  rw [checked_div_of_ne _ _ h4]
  norm_num

namespace Compensators

theorem CheesemanCompensator_eq_some (k : Constants K) (thrust_ref z : K) (hz : z ≠ 0) :
    CheesemanCompensator k thrust_ref z =
      some (thrust_ref * (1 - (k.quad_rotor_radius / (4 * z)) ^ 2)) := by
  have h4 : (4 : K) * z ≠ 0 := mul_ne_zero (by norm_num) hz
  unfold CheesemanCompensator
  rw [checked_div_of_ne _ _ h4]
  norm_num

theorem float_mul_of_le (a b : K) (h : |a * b| ≤ 1 / 2 ^ 150) : float_mul a b = 0 := by
  unfold float_mul
  rw [if_pos h]

/-- The model product of two values of the same sign is not negative. -/
theorem float_mul_nonneg (a b : K) (h : 0 ≤ a * b) : 0 ≤ float_mul a b := by
  unfold float_mul
  split_ifs
  · exact le_refl 0
  · exact h

/-- The model product is zero exactly on underflow or for a zero factor. -/
theorem float_mul_self_eq_zero_iff (z : K) : float_mul z z = 0 ↔ z * z ≤ 1 / 2 ^ 150 := by
  have habs : |z * z| = z * z := abs_of_nonneg (mul_self_nonneg z)
  unfold float_mul
  rw [habs]
  split_ifs with h
  · exact ⟨fun _ => h, fun _ => rfl⟩
  · constructor
    · intro h0
      have hpos : (0 : K) < 1 / 2 ^ 150 := by positivity
      rw [h0] at h
      exact absurd (le_of_lt hpos) h
    · intro h1
      exact absurd h1 h

/-- The Hayden compensator divides by no zero exactly when the product
`z * z` does not underflow. -/
theorem HaydenCompensator_isSome_iff (m : CMath K) (k : Constants K) (thrust_ref z : K) :
    (HaydenCompensator m k thrust_ref z).isSome = true ↔ 1 / 2 ^ 150 < z * z := by
  rcases le_or_lt (z * z) (1 / 2 ^ 150) with h | h
  · have h0 : float_mul z z = 0 := (float_mul_self_eq_zero_iff z).mpr h
    unfold HaydenCompensator
    rw [h0, checked_div_zero]
    exact ⟨fun h1 => by simp at h1, fun h1 => absurd h1 (not_lt.mpr h)⟩
  · have hne : float_mul z z ≠ 0 := fun h0 =>
      absurd ((float_mul_self_eq_zero_iff z).mp h0) (not_le.mpr h)
    have hfp : 0 < float_mul z z :=
      lt_of_le_of_ne (float_mul_nonneg z z (mul_self_nonneg z)) (Ne.symm hne)
    have hq : 0 ≤ 0.03794 * 4 * k.quad_rotor_radius * k.quad_rotor_radius / float_mul z z := by
      apply div_nonneg _ (le_of_lt hfp)
      have := mul_self_nonneg k.quad_rotor_radius
      have h4 : (0 : K) ≤ 0.03794 * 4 := by norm_num
      calc (0 : K) ≤ 0.03794 * 4 * (k.quad_rotor_radius * k.quad_rotor_radius) :=
            mul_nonneg h4 this
        _ = 0.03794 * 4 * k.quad_rotor_radius * k.quad_rotor_radius := by ring
    have hb : 0 < 0.9926 +
        0.03794 * 4 * k.quad_rotor_radius * k.quad_rotor_radius / float_mul z z := by
      have : (0 : K) < 0.9926 := by norm_num
      linarith
    unfold HaydenCompensator
    rw [checked_div_of_ne _ _ hne]
    simp only [Option.bind_eq_bind, Option.some_bind]
    rw [checked_pow_of_pos m _ _ hb]
    exact ⟨fun _ => h, fun _ => rfl⟩

/-- At the height `z = 1e-30`, which is not 0, the product `z * z` underflows
and the Hayden compensator divides by zero. -/
theorem HaydenCompensator_underflow (m : CMath K) (k : Constants K) (thrust_ref : K) :
    HaydenCompensator m k thrust_ref 1e-30 = none := by
  have h := (HaydenCompensator_isSome_iff m k thrust_ref 1e-30).not.mpr (by norm_num)
  cases hH : HaydenCompensator m k thrust_ref 1e-30 with
  | none => rfl
  | some w => rw [hH] at h; simp at h

/-- With positive constants the divisor of `v_h` is positive. -/
theorem v_h_divisor_pos (m : CMath K) (k : Constants K) (hR : 0 < k.quad_rotor_radius)
    (hrho : 0 < k.rho_air) (hpi : 0 < m.pi) :
    0 < 2 * k.rho_air * m.pi * k.quad_rotor_radius :=
  mul_pos (mul_pos (mul_pos (by norm_num) hrho) hpi) hR

theorem v_h_eq (m : CMath K) (k : Constants K) (hR : 0 < k.quad_rotor_radius)
    (hrho : 0 < k.rho_air) (hpi : 0 < m.pi) :
    v_h m k = some (m.sqrt (T_h k / (2 * k.rho_air * m.pi * k.quad_rotor_radius))) := by
  unfold v_h
  rw [checked_div_of_ne _ _ (ne_of_gt (v_h_divisor_pos m k hR hrho hpi))]
  rfl

theorem v_h_pos (m : CMath K) (k : Constants K) (hR : 0 < k.quad_rotor_radius)
    (hmass : 0 < k.quadcopter_mass) (hg : 0 < k.g) (hrho : 0 < k.rho_air) (hpi : 0 < m.pi)
    (hsqrt : ∀ x : K, 0 < x → 0 < m.sqrt x) :
    0 < m.sqrt (T_h k / (2 * k.rho_air * m.pi * k.quad_rotor_radius)) := by
  apply hsqrt
  apply div_pos _ (v_h_divisor_pos m k hR hrho hpi)
  unfold T_h
  exact div_pos (mul_pos hmass hg) (by norm_num)

/-- The dynamic Cheeseman compensator for `z ≠ 0` and a positive `v_h`. -/
theorem CheesemanDynamicCompensator_eq (m : CMath K) (k : Constants K) (thrust_ref z v : K)
    (hz : z ≠ 0) (hR : 0 < k.quad_rotor_radius) (hmass : 0 < k.quadcopter_mass)
    (hg : 0 < k.g) (hrho : 0 < k.rho_air) (hpi : 0 < m.pi)
    (hsqrt : ∀ x : K, 0 < x → 0 < m.sqrt x) :
    CheesemanDynamicCompensator m k thrust_ref z v =
      some (thrust_ref * (1 - (k.quad_rotor_radius / (4 * z)) ^ 2 /
        (1 + (v / m.sqrt (T_h k / (2 * k.rho_air * m.pi * k.quad_rotor_radius))) ^ 2))) := by
  have h4 : (4 : K) * z ≠ 0 := mul_ne_zero (by norm_num) hz
  have hv := v_h_pos m k hR hmass hg hrho hpi hsqrt
  have hden : (1 : K) +
      (v / m.sqrt (T_h k / (2 * k.rho_air * m.pi * k.quad_rotor_radius))) ^ 2 ≠ 0 := by
    have := sq_nonneg (v / m.sqrt (T_h k / (2 * k.rho_air * m.pi * k.quad_rotor_radius)))
    exact ne_of_gt (by linarith)
  unfold CheesemanDynamicCompensator
  rw [v_h_eq m k hR hrho hpi]
  simp only [Option.bind_eq_bind, Option.some_bind]
  rw [checked_div_of_ne _ _ h4]
  simp only [Option.some_bind]
  rw [checked_div_of_ne _ _ (ne_of_gt hv)]
  simp only [Option.some_bind]
  rw [checked_div_of_ne _ _ hden]
  norm_num

/-- The Kan compensator for `z ≠ 0` and a positive `v_h`: one more division,
by `1 - 3 R / (25 z)`. -/
theorem KanDynamicCompensator_eq (m : CMath K) (k : Constants K) (thrust_ref z v : K)
    (hz : z ≠ 0) (hR : 0 < k.quad_rotor_radius) (hmass : 0 < k.quadcopter_mass)
    (hg : 0 < k.g) (hrho : 0 < k.rho_air) (hpi : 0 < m.pi)
    (hsqrt : ∀ x : K, 0 < x → 0 < m.sqrt x) :
    KanDynamicCompensator m k thrust_ref z v =
      (checked_div
        (1 + 16 * (v / m.sqrt (T_h k / (2 * k.rho_air * m.pi * k.quad_rotor_radius))) ^ 3)
        (1 - 3 * k.quad_rotor_radius / (25 * z))).bind
        (fun w => some (thrust_ref * w)) := by
  have h25 : (25 : K) * z ≠ 0 := mul_ne_zero (by norm_num) hz
  have hv := v_h_pos m k hR hmass hg hrho hpi hsqrt
  have h16 : ((50 / 3 : ℤ) : K) = 16 := by norm_num
  unfold KanDynamicCompensator
  rw [v_h_eq m k hR hrho hpi]
  simp only [Option.bind_eq_bind, Option.some_bind]
  rw [checked_div_of_ne _ _ (ne_of_gt hv)]
  simp only [Option.some_bind]
  rw [checked_div_of_ne _ _ h25]
  simp only [Option.some_bind, h16]
  rfl

/-- The divisor `1 - 3 R / (25 z)` vanishes exactly when `25 z = 3 R`. -/
theorem kan_divisor_eq_zero_iff (R z : K) (hz : z ≠ 0) :
    1 - 3 * R / (25 * z) = 0 ↔ 25 * z = 3 * R := by
  have h25 : (25 : K) * z ≠ 0 := mul_ne_zero (by norm_num) hz
  rw [sub_eq_zero, eq_comm, div_eq_one_iff_eq h25, eq_comm]

end Compensators

end CompensatorLemmas

section CompensatorClaims

open Compensators

/-- C18: for the same rotor radius `R`, every thrust and every `z ≠ 0` with
`(R / (4 z))^2 ≠ 1`, the Cheeseman compensator of `quad_control.cpp` applied
to the result of the one of `compensators.cpp` at the same `z` returns the
thrust; and the two give the same output exactly when the thrust is 0 or
the factor `1 - (R / (4 z))^2` is 1 or -1. -/
theorem cheeseman_compensators_inverse (k : Constants K) (thrust z : K)
    (hR : k.quad_rotor_radius = quad_rotor_radius) (hz : z ≠ 0)
    (hq : (quad_rotor_radius / (4 * z)) ^ 2 ≠ (1 : K)) :
    (Compensators.CheesemanCompensator k thrust z).bind
        (fun t => QuadControl.CheesemanCompensator t z) = some thrust ∧
    (Compensators.CheesemanCompensator k thrust z = QuadControl.CheesemanCompensator thrust z ↔
      thrust = 0 ∨ 1 - (quad_rotor_radius / (4 * z)) ^ 2 = (1 : K) ∨
        1 - (quad_rotor_radius / (4 * z)) ^ 2 = (-1 : K)) := by
  have hf : (1 : K) - (quad_rotor_radius / (4 * z)) ^ 2 ≠ 0 := by
    intro h
    exact hq (sub_eq_zero.mp h).symm
  rw [CheesemanCompensator_eq_some k thrust z hz, hR]
  simp only [Option.some_bind]
  rw [CheesemanCompensator_eq_div _ z hz, CheesemanCompensator_eq_div _ z hz,
    checked_div_of_ne _ _ hf, checked_div_of_ne _ _ hf]
  constructor
  · rw [mul_div_assoc, div_self hf, mul_one]
  · generalize (1 : K) - (quad_rotor_radius / (4 * z)) ^ 2 = f at hf
    rw [Option.some_inj, eq_div_iff hf]
    constructor
    · intro h
      have h2 : thrust * ((f - 1) * (f + 1)) = 0 := by
        have : thrust * ((f - 1) * (f + 1)) = thrust * f * f - thrust := by ring
        rw [this, h, sub_self]
      rcases mul_eq_zero.mp h2 with h3 | h3
      · exact Or.inl h3
      · rcases mul_eq_zero.mp h3 with h4 | h4
        · exact Or.inr (Or.inl (sub_eq_zero.mp h4))
        · exact Or.inr (Or.inr (eq_neg_of_add_eq_zero_left h4))
    · rintro (h | h | h)
      · rw [h]; ring
      · rw [h]; ring
      · rw [h]; ring

theorem cheeseman_compensators_inverse_witness :
    (Compensators.CheesemanCompensator (⟨0.12, 0.3, 1, 1.2, 1.5, 9.81⟩ : Constants ℚ) 10 1).bind
        (fun t => QuadControl.CheesemanCompensator t 1) = some 10 ∧
    (Compensators.CheesemanCompensator (⟨0.12, 0.3, 1, 1.2, 1.5, 9.81⟩ : Constants ℚ) 10 1 =
        QuadControl.CheesemanCompensator 10 1 ↔
      (10 : ℚ) = 0 ∨ 1 - (quad_rotor_radius / (4 * 1)) ^ 2 = (1 : ℚ) ∨
        1 - (quad_rotor_radius / (4 * 1)) ^ 2 = (-1 : ℚ)) :=
  cheeseman_compensators_inverse (⟨0.12, 0.3, 1, 1.2, 1.5, 9.81⟩ : Constants ℚ) 10 1
    rfl one_ne_zero (by unfold quad_rotor_radius; norm_num)

/-- C19: for `z ≠ 0` and positive rotor radius, mass, gravity, air density
and `M_PI`, with `sqrt` of a positive number positive: at forward speed 0
the dynamic Cheeseman compensator returns what the static one of
`compensators.cpp` returns, where `v_h = sqrt (T_h / (2 rho_air pi R))` and
`T_h = mass * g / 4`; and for every `v` the dynamic factor
`1 - (R / (4 z))^2 / (1 + (v / v_h)^2)` lies between the static factor
`1 - (R / (4 z))^2` and 1. -/
theorem cheeseman_dynamic_reduces_to_static (m : CMath K) (k : Constants K) (thrust z v : K)
    (hz : z ≠ 0) (hR : 0 < k.quad_rotor_radius) (hmass : 0 < k.quadcopter_mass)
    (hg : 0 < k.g) (hrho : 0 < k.rho_air) (hpi : 0 < m.pi)
    (hsqrt : ∀ x : K, 0 < x → 0 < m.sqrt x) :
    CheesemanDynamicCompensator m k thrust z 0 =
      Compensators.CheesemanCompensator k thrust z ∧
    Compensators.v_h m k =
      some (m.sqrt (T_h k / (2 * k.rho_air * m.pi * k.quad_rotor_radius))) ∧
    T_h k = k.quadcopter_mass * k.g / 4 ∧
    Compensators.CheesemanCompensator k thrust z =
      some (thrust * (1 - (k.quad_rotor_radius / (4 * z)) ^ 2)) ∧
    CheesemanDynamicCompensator m k thrust z v =
      some (thrust * (1 - (k.quad_rotor_radius / (4 * z)) ^ 2 /
        (1 + (v / m.sqrt (T_h k / (2 * k.rho_air * m.pi * k.quad_rotor_radius))) ^ 2))) ∧
    1 - (k.quad_rotor_radius / (4 * z)) ^ 2 ≤
      1 - (k.quad_rotor_radius / (4 * z)) ^ 2 /
        (1 + (v / m.sqrt (T_h k / (2 * k.rho_air * m.pi * k.quad_rotor_radius))) ^ 2) ∧
    1 - (k.quad_rotor_radius / (4 * z)) ^ 2 /
        (1 + (v / m.sqrt (T_h k / (2 * k.rho_air * m.pi * k.quad_rotor_radius))) ^ 2) ≤ 1 := by
  have hq := sq_nonneg (k.quad_rotor_radius / (4 * z))
  have hr := sq_nonneg (v / m.sqrt (T_h k / (2 * k.rho_air * m.pi * k.quad_rotor_radius)))
  have hd : (1 : K) ≤
      1 + (v / m.sqrt (T_h k / (2 * k.rho_air * m.pi * k.quad_rotor_radius))) ^ 2 := by
    linarith
  have h1 := div_le_self hq hd
  have h2 := div_nonneg hq (le_trans zero_le_one hd)
  refine ⟨?_, v_h_eq m k hR hrho hpi, rfl, CheesemanCompensator_eq_some k thrust z hz,
    CheesemanDynamicCompensator_eq m k thrust z v hz hR hmass hg hrho hpi hsqrt, ?_, ?_⟩
  · rw [CheesemanDynamicCompensator_eq m k thrust z 0 hz hR hmass hg hrho hpi hsqrt,
      CheesemanCompensator_eq_some k thrust z hz]
    norm_num
  · linarith
  · linarith

theorem cheeseman_dynamic_reduces_to_static_witness :
    CheesemanDynamicCompensator
        (⟨Real.sqrt, Real.sin, Real.cos, Real.exp, fun y x => (Complex.mk x y).arg,
          fun x y => x ^ y, Real.pi⟩ : CMath ℝ)
        (⟨0.12, 0.3, 1, 1.2, 1.5, 9.81⟩ : Constants ℝ) 10 1 0 =
      Compensators.CheesemanCompensator (⟨0.12, 0.3, 1, 1.2, 1.5, 9.81⟩ : Constants ℝ) 10 1 ∧
    Compensators.CheesemanCompensator (⟨0.12, 0.3, 1, 1.2, 1.5, 9.81⟩ : Constants ℝ) 10 1 =
      some (10 * (1 - ((0.12 : ℝ) / (4 * 1)) ^ 2)) :=
  have h := cheeseman_dynamic_reduces_to_static
    (⟨Real.sqrt, Real.sin, Real.cos, Real.exp, fun y x => (Complex.mk x y).arg,
      fun x y => x ^ y, Real.pi⟩ : CMath ℝ)
    (⟨0.12, 0.3, 1, 1.2, 1.5, 9.81⟩ : Constants ℝ) 10 1 2
    one_ne_zero (by norm_num) (by norm_num) (by norm_num) (by norm_num)
    Real.pi_pos (fun _ hx => Real.sqrt_pos.mpr hx)
  ⟨h.1, h.2.2.2.1⟩

/-- C20: the coefficient `(50 / 3)` of the Kan compensator is the integer
16.  For `z ≠ 0` and `25 z ≠ 3 R`, with positive rotor radius, mass,
gravity, air density and `M_PI` and `sqrt` of a positive number positive,
the result is `thrust * (1 + 16 * (v / v_h)^3) / (1 - 3 R / (25 z))` with
`v_h = sqrt (T_h / (2 rho_air pi R))`; at `v = v_h` the numerator factor is
17, which is not `1 + 50 / 3`. -/
theorem kan_integer_coefficient (m : CMath K) (k : Constants K) (thrust z v : K)
    (hz : z ≠ 0) (h25 : 25 * z ≠ 3 * k.quad_rotor_radius)
    (hR : 0 < k.quad_rotor_radius) (hmass : 0 < k.quadcopter_mass)
    (hg : 0 < k.g) (hrho : 0 < k.rho_air) (hpi : 0 < m.pi)
    (hsqrt : ∀ x : K, 0 < x → 0 < m.sqrt x) :
    ((50 / 3 : ℤ) : K) = 16 ∧
    Compensators.v_h m k =
      some (m.sqrt (T_h k / (2 * k.rho_air * m.pi * k.quad_rotor_radius))) ∧
    KanDynamicCompensator m k thrust z v =
      some (thrust *
        (1 + 16 * (v / m.sqrt (T_h k / (2 * k.rho_air * m.pi * k.quad_rotor_radius))) ^ 3) /
        (1 - 3 * k.quad_rotor_radius / (25 * z))) ∧
    KanDynamicCompensator m k thrust z
        (m.sqrt (T_h k / (2 * k.rho_air * m.pi * k.quad_rotor_radius))) =
      some (thrust * 17 / (1 - 3 * k.quad_rotor_radius / (25 * z))) ∧
    (17 : K) ≠ 1 + 50 / 3 := by
  have hden : 1 - 3 * k.quad_rotor_radius / (25 * z) ≠ 0 :=
    fun h => h25 ((kan_divisor_eq_zero_iff k.quad_rotor_radius z hz).mp h)
  have hv := v_h_pos m k hR hmass hg hrho hpi hsqrt
  refine ⟨by norm_num, v_h_eq m k hR hrho hpi, ?_, ?_, by norm_num⟩
  · rw [KanDynamicCompensator_eq m k thrust z v hz hR hmass hg hrho hpi hsqrt,
      checked_div_of_ne _ _ hden, Option.some_bind, mul_div_assoc thrust]
  · rw [KanDynamicCompensator_eq m k thrust z _ hz hR hmass hg hrho hpi hsqrt,
      checked_div_of_ne _ _ hden, Option.some_bind, div_self (ne_of_gt hv),
      mul_div_assoc thrust]
    norm_num

theorem kan_integer_coefficient_witness :
    KanDynamicCompensator
        (⟨Real.sqrt, Real.sin, Real.cos, Real.exp, fun y x => (Complex.mk x y).arg,
          fun x y => x ^ y, Real.pi⟩ : CMath ℝ)
        (⟨0.12, 0.3, 1, 1.2, 1.5, 9.81⟩ : Constants ℝ) 10 1
        (Real.sqrt (T_h (⟨0.12, 0.3, 1, 1.2, 1.5, 9.81⟩ : Constants ℝ) /
          (2 * 1.2 * Real.pi * 0.12))) =
      some (10 * 17 / (1 - 3 * 0.12 / (25 * 1))) ∧
    (17 : ℝ) ≠ 1 + 50 / 3 :=
  (kan_integer_coefficient
    (⟨Real.sqrt, Real.sin, Real.cos, Real.exp, fun y x => (Complex.mk x y).arg,
      fun x y => x ^ y, Real.pi⟩ : CMath ℝ)
    (⟨0.12, 0.3, 1, 1.2, 1.5, 9.81⟩ : Constants ℝ) 10 1 2
    one_ne_zero (by norm_num) (by norm_num) (by norm_num) (by norm_num) (by norm_num)
    Real.pi_pos (fun _ hx => Real.sqrt_pos.mpr hx)).2.2.2

end CompensatorClaims

section AttitudeLemmas

namespace Vector3

theorem squaredNorm_nonneg (a : Vector3 K) : 0 ≤ squaredNorm a := by
  unfold squaredNorm
  have h1 := mul_self_nonneg a.x
  have h2 := mul_self_nonneg a.y
  have h3 := mul_self_nonneg a.z
  linarith

/-- A vector other than zero has positive squared length. -/
theorem squaredNorm_pos (a : Vector3 K) (h : a ≠ ⟨0, 0, 0⟩) : 0 < squaredNorm a := by
  rcases lt_or_eq_of_le (squaredNorm_nonneg a) with h0 | h0
  · exact h0
  · exfalso
    apply h
    unfold squaredNorm at h0
    have h1 := mul_self_nonneg a.x
    have h2 := mul_self_nonneg a.y
    have h3 := mul_self_nonneg a.z
    have hx : a.x = 0 := mul_self_eq_zero.mp (by linarith)
    have hy : a.y = 0 := mul_self_eq_zero.mp (by linarith)
    have hz : a.z = 0 := mul_self_eq_zero.mp (by linarith)
    cases a
    simp only at hx hy hz
    rw [hx, hy, hz]

theorem squaredNorm_divide (a : Vector3 K) (s : K) :
    squaredNorm (divide a s) = squaredNorm a / (s * s) := by
  unfold squaredNorm divide
  simp only [div_mul_div_comm]
  ring

theorem dot_divide_left (a b : Vector3 K) (s : K) : dot (divide a s) b = dot a b / s := by
  unfold dot divide
  simp only
  ring

theorem cross_divide_right (a b : Vector3 K) (s : K) :
    cross a (divide b s) = divide (cross a b) s := by
  unfold cross divide
  simp only [mk.injEq]
  refine ⟨?_, ?_, ?_⟩ <;> ring

/-- Lagrange's identity. -/
theorem squaredNorm_cross (a b : Vector3 K) :
    squaredNorm (cross a b) = squaredNorm a * squaredNorm b - dot a b ^ 2 := by
  unfold squaredNorm cross dot
  simp only
  ring

theorem dot_cross_right (a b : Vector3 K) : dot (cross a b) b = 0 := by
  unfold cross dot
  simp only
  ring

theorem dot_self_cross (a b : Vector3 K) : dot b (cross a b) = 0 := by
  unfold cross dot
  simp only
  ring

theorem dot_cross_left (a b : Vector3 K) : dot (cross a b) a = 0 := by
  unfold cross dot
  simp only
  ring

theorem dot_comm (a b : Vector3 K) : dot a b = dot b a := by
  unfold dot
  ring

/-- On a vector of positive squared length `normalize` divides by the
length. -/
theorem normalize_of_pos (m : CMath K) (a : Vector3 K) (h : 0 < squaredNorm a) :
    normalize m a = divide a (m.sqrt (squaredNorm a)) := by
  unfold normalize
  simp only [gt_iff_lt, if_pos h]

/-- On a vector of squared length zero `normalize` changes nothing. -/
theorem normalize_of_zero (m : CMath K) (a : Vector3 K) (h : squaredNorm a = 0) :
    normalize m a = a := by
  unfold normalize
  simp only [gt_iff_lt, h, lt_irrefl, if_false]

theorem squaredNorm_normalize (m : CMath K) (a : Vector3 K)
    (hsq : ∀ x : K, 0 ≤ x → m.sqrt x * m.sqrt x = x) (h : 0 < squaredNorm a) :
    squaredNorm (normalize m a) = 1 := by
  rw [normalize_of_pos m a h, squaredNorm_divide, hsq _ (le_of_lt h)]
  exact div_self (ne_of_gt h)

end Vector3

/-- The square root of 1 is 1. -/
theorem sqrt_one_eq (m : CMath K) (hsq : ∀ x : K, 0 ≤ x → m.sqrt x * m.sqrt x = x)
    (hpos : ∀ x : K, 0 < x → 0 < m.sqrt x) : m.sqrt 1 = 1 := by
  have h1 := hsq 1 zero_le_one
  have h2 := hpos 1 zero_lt_one
  have h3 : (m.sqrt 1 - 1) * (m.sqrt 1 + 1) = 0 := by
    have : (m.sqrt 1 - 1) * (m.sqrt 1 + 1) = m.sqrt 1 * m.sqrt 1 - 1 := by ring
    rw [this, h1, sub_self]
  rcases mul_eq_zero.mp h3 with h | h
  · exact sub_eq_zero.mp h
  · exfalso; linarith

/-- The square root of `k * k` is `k` for positive `k`. -/
theorem sqrt_mul_self_eq (m : CMath K) (hsq : ∀ x : K, 0 ≤ x → m.sqrt x * m.sqrt x = x)
    (hpos : ∀ x : K, 0 < x → 0 < m.sqrt x) (k : K) (hk : 0 < k) : m.sqrt (k * k) = k := by
  have h1 := hsq (k * k) (mul_self_nonneg k)
  have h2 := hpos (k * k) (mul_pos hk hk)
  have h3 : (m.sqrt (k * k) - k) * (m.sqrt (k * k) + k) = 0 := by
    have : (m.sqrt (k * k) - k) * (m.sqrt (k * k) + k) =
        m.sqrt (k * k) * m.sqrt (k * k) - k * k := by ring
    rw [this, h1, sub_self]
  rcases mul_eq_zero.mp h3 with h | h
  · exact sub_eq_zero.mp h
  · exfalso; linarith

/-- The determinant is the scalar triple product of the columns. -/
theorem determinant_eq_triple (M : Matrix3 K) :
    M.determinant = Vector3.dot M.col0 (Vector3.cross M.col1 M.col2) := by
  unfold Matrix3.determinant Vector3.dot Vector3.cross
  simp only
  ring

/-- The determinant of the matrix with columns `x`, `z × x`, `z`. -/
theorem determinant_of_frame (x z : Vector3 K) :
    (⟨x, Vector3.cross z x, z⟩ : Matrix3 K).determinant =
      Vector3.squaredNorm x * Vector3.squaredNorm z - Vector3.dot x z ^ 2 := by
  unfold Matrix3.determinant Vector3.dot Vector3.cross Vector3.squaredNorm
  simp only
  ring

end AttitudeLemmas

section AttitudeClaims

/-- The three facts from which orthonormality follows: `x_b_ref` and
`z_b_ref` have squared length 1 and are orthogonal. -/
theorem reference_body_frame_core (m : CMath K) (acc_ref : Vector3 K) (yaw_ref : K)
    (hsq : ∀ x : K, 0 ≤ x → m.sqrt x * m.sqrt x = x)
    (hpos : ∀ x : K, 0 < x → 0 < m.sqrt x)
    (hcross : Vector3.cross ⟨-m.sin yaw_ref, m.cos yaw_ref, 0⟩ acc_ref ≠ ⟨0, 0, 0⟩) :
    Vector3.squaredNorm (reference_body_frame m acc_ref yaw_ref).col0 = 1 ∧
    Vector3.squaredNorm (reference_body_frame m acc_ref yaw_ref).col2 = 1 ∧
    Vector3.dot (reference_body_frame m acc_ref yaw_ref).col0
      (reference_body_frame m acc_ref yaw_ref).col2 = 0 := by
  have hacc : acc_ref ≠ ⟨0, 0, 0⟩ := by
    intro h
    apply hcross
    rw [h]
    simp [Vector3.cross]
  have hN := Vector3.squaredNorm_pos acc_ref hacc
  have hn := hpos _ hN
  have hC := Vector3.squaredNorm_pos _ hcross
  have hz : Vector3.normalize m acc_ref =
      Vector3.divide acc_ref (m.sqrt (Vector3.squaredNorm acc_ref)) :=
    Vector3.normalize_of_pos m acc_ref hN
  have hc : 0 < Vector3.squaredNorm
      (Vector3.cross ⟨-m.sin yaw_ref, m.cos yaw_ref, 0⟩ (Vector3.normalize m acc_ref)) := by
    rw [hz, Vector3.cross_divide_right, Vector3.squaredNorm_divide]
    exact div_pos hC (mul_pos hn hn)
  refine ⟨Vector3.squaredNorm_normalize m _ hsq hc, Vector3.squaredNorm_normalize m _ hsq hN, ?_⟩
  show Vector3.dot (Vector3.normalize m
      (Vector3.cross ⟨-m.sin yaw_ref, m.cos yaw_ref, 0⟩ (Vector3.normalize m acc_ref)))
    (Vector3.normalize m acc_ref) = 0
  rw [Vector3.normalize_of_pos m _ hc, Vector3.dot_divide_left, Vector3.dot_cross_right,
    zero_div]

/-- C11 fails when `acc_ref` is parallel to `y_c`: with `yaw_ref = 0` and
the non-zero `acc_ref = (0, 1, 0)`, over the reals with the real square
root, sine and cosine, `y_c × z_b` is zero, `normalize` leaves it zero, and
the matrix has the zero column `x_b_ref` and determinant 0. -/
theorem reference_body_frame_degenerate :
    (⟨0, 1, 0⟩ : Vector3 ℝ) ≠ ⟨0, 0, 0⟩ ∧
    (reference_body_frame
      (⟨Real.sqrt, Real.sin, Real.cos, Real.exp, fun y x => (Complex.mk x y).arg,
        fun x y => x ^ y, Real.pi⟩ : CMath ℝ) ⟨0, 1, 0⟩ 0).col0 = ⟨0, 0, 0⟩ ∧
    Vector3.squaredNorm (reference_body_frame
      (⟨Real.sqrt, Real.sin, Real.cos, Real.exp, fun y x => (Complex.mk x y).arg,
        fun x y => x ^ y, Real.pi⟩ : CMath ℝ) ⟨0, 1, 0⟩ 0).col0 ≠ 1 ∧
    (reference_body_frame
      (⟨Real.sqrt, Real.sin, Real.cos, Real.exp, fun y x => (Complex.mk x y).arg,
        fun x y => x ^ y, Real.pi⟩ : CMath ℝ) ⟨0, 1, 0⟩ 0).determinant ≠ 1 := by
  have hz : Vector3.normalize
      (⟨Real.sqrt, Real.sin, Real.cos, Real.exp, fun y x => (Complex.mk x y).arg,
        fun x y => x ^ y, Real.pi⟩ : CMath ℝ) ⟨0, 1, 0⟩ = ⟨0, 1, 0⟩ := by
    rw [Vector3.normalize_of_pos _ _ (by norm_num [Vector3.squaredNorm])]
    norm_num [Vector3.squaredNorm, Vector3.divide]
  have hx : (reference_body_frame
      (⟨Real.sqrt, Real.sin, Real.cos, Real.exp, fun y x => (Complex.mk x y).arg,
        fun x y => x ^ y, Real.pi⟩ : CMath ℝ) ⟨0, 1, 0⟩ 0).col0 = ⟨0, 0, 0⟩ := by
    unfold reference_body_frame
    simp only [hz, Real.sin_zero, Real.cos_zero, neg_zero]
    rw [Vector3.normalize_of_zero _ _ (by norm_num [Vector3.squaredNorm, Vector3.cross])]
    norm_num [Vector3.cross]
  refine ⟨?_, hx, ?_, ?_⟩
  · intro h
    have := congrArg Vector3.y h
    norm_num at this
  · rw [hx]
    norm_num [Vector3.squaredNorm]
  · rw [determinant_eq_triple, hx]
    norm_num [Vector3.dot]

/-- C11 (amended): for every `yaw_ref` and every `acc_ref` that is not
parallel to `y_c = (-sin yaw_ref, cos yaw_ref, 0)`, that is with
`y_c × acc_ref ≠ 0`, and with `sqrt` the positive square root, the matrix
`[x_b | y_b | z_b]` is orthonormal: every column has length 1, the columns
are mutually orthogonal, and the determinant is 1. -/
theorem reference_body_frame_orthonormal (m : CMath K) (acc_ref : Vector3 K) (yaw_ref : K)
    (hsq : ∀ x : K, 0 ≤ x → m.sqrt x * m.sqrt x = x)
    (hpos : ∀ x : K, 0 < x → 0 < m.sqrt x)
    (hcross : Vector3.cross ⟨-m.sin yaw_ref, m.cos yaw_ref, 0⟩ acc_ref ≠ ⟨0, 0, 0⟩) :
    (Vector3.norm m (reference_body_frame m acc_ref yaw_ref).col0 = 1 ∧
      Vector3.norm m (reference_body_frame m acc_ref yaw_ref).col1 = 1 ∧
      Vector3.norm m (reference_body_frame m acc_ref yaw_ref).col2 = 1) ∧
    (Vector3.dot (reference_body_frame m acc_ref yaw_ref).col0
        (reference_body_frame m acc_ref yaw_ref).col1 = 0 ∧
      Vector3.dot (reference_body_frame m acc_ref yaw_ref).col0
        (reference_body_frame m acc_ref yaw_ref).col2 = 0 ∧
      Vector3.dot (reference_body_frame m acc_ref yaw_ref).col1
        (reference_body_frame m acc_ref yaw_ref).col2 = 0) ∧
    (reference_body_frame m acc_ref yaw_ref).determinant = 1 := by
  obtain ⟨hx, hz, hxz⟩ := reference_body_frame_core m acc_ref yaw_ref hsq hpos hcross
  have hy1 : (reference_body_frame m acc_ref yaw_ref).col1 =
      Vector3.cross (reference_body_frame m acc_ref yaw_ref).col2
        (reference_body_frame m acc_ref yaw_ref).col0 := rfl
  have hM : reference_body_frame m acc_ref yaw_ref =
      ⟨(reference_body_frame m acc_ref yaw_ref).col0,
       Vector3.cross (reference_body_frame m acc_ref yaw_ref).col2
        (reference_body_frame m acc_ref yaw_ref).col0,
       (reference_body_frame m acc_ref yaw_ref).col2⟩ := rfl
  have hy : Vector3.squaredNorm (reference_body_frame m acc_ref yaw_ref).col1 = 1 := by
    rw [hy1, Vector3.squaredNorm_cross, hx, hz, Vector3.dot_comm, hxz]
    norm_num
  have h1 := sqrt_one_eq m hsq hpos
  refine ⟨⟨?_, ?_, ?_⟩, ⟨?_, hxz, ?_⟩, ?_⟩
  · unfold Vector3.norm; rw [hx, h1]
  · unfold Vector3.norm; rw [hy, h1]
  · unfold Vector3.norm; rw [hz, h1]
  · rw [hy1]; exact Vector3.dot_self_cross _ _
  · rw [hy1]; exact Vector3.dot_cross_left _ _
  · rw [hM, determinant_of_frame, hx, hz, hxz]
    norm_num

theorem reference_body_frame_orthonormal_witness :
    (reference_body_frame
      (⟨Real.sqrt, Real.sin, Real.cos, Real.exp, fun y x => (Complex.mk x y).arg,
        fun x y => x ^ y, Real.pi⟩ : CMath ℝ) ⟨1, 2, 3⟩ 0).determinant = 1 ∧
    Vector3.dot
      (reference_body_frame
        (⟨Real.sqrt, Real.sin, Real.cos, Real.exp, fun y x => (Complex.mk x y).arg,
          fun x y => x ^ y, Real.pi⟩ : CMath ℝ) ⟨1, 2, 3⟩ 0).col0
      (reference_body_frame
        (⟨Real.sqrt, Real.sin, Real.cos, Real.exp, fun y x => (Complex.mk x y).arg,
          fun x y => x ^ y, Real.pi⟩ : CMath ℝ) ⟨1, 2, 3⟩ 0).col1 = 0 :=
  have h := reference_body_frame_orthonormal
    (⟨Real.sqrt, Real.sin, Real.cos, Real.exp, fun y x => (Complex.mk x y).arg,
      fun x y => x ^ y, Real.pi⟩ : CMath ℝ) ⟨1, 2, 3⟩ 0
    (fun _ hx => Real.mul_self_sqrt hx) (fun _ hx => Real.sqrt_pos.mpr hx)
    (by
      intro h
      have := congrArg Vector3.x h
      norm_num [Vector3.cross, Real.sin_zero, Real.cos_zero] at this)
  ⟨h.2.2, h.2.1.1⟩

/-- For `acc_ref = (0, 0, k)` with `k > 0` and `yaw_ref = 0` the reference
body frame is the identity matrix. -/
theorem reference_body_frame_upward (m : CMath K) (k : K) (hk : 0 < k)
    (hsq : ∀ x : K, 0 ≤ x → m.sqrt x * m.sqrt x = x)
    (hpos : ∀ x : K, 0 < x → 0 < m.sqrt x)
    (hsin : m.sin 0 = 0) (hcos : m.cos 0 = 1) :
    reference_body_frame m ⟨0, 0, k⟩ 0 = ⟨⟨1, 0, 0⟩, ⟨0, 1, 0⟩, ⟨0, 0, 1⟩⟩ := by
  have hN : Vector3.squaredNorm (⟨0, 0, k⟩ : Vector3 K) = k * k := by
    simp [Vector3.squaredNorm]
  have hz : Vector3.normalize m (⟨0, 0, k⟩ : Vector3 K) = ⟨0, 0, 1⟩ := by
    rw [Vector3.normalize_of_pos m _ (by rw [hN]; exact mul_pos hk hk), hN,
      sqrt_mul_self_eq m hsq hpos k hk]
    simp [Vector3.divide, div_self (ne_of_gt hk)]
  have hc : Vector3.cross (⟨-(0 : K), 1, 0⟩ : Vector3 K) ⟨0, 0, 1⟩ = ⟨1, 0, 0⟩ := by
    simp [Vector3.cross]
  have hx : Vector3.normalize m (⟨1, 0, 0⟩ : Vector3 K) = ⟨1, 0, 0⟩ := by
    have h1 : Vector3.squaredNorm (⟨1, 0, 0⟩ : Vector3 K) = 1 := by
      simp [Vector3.squaredNorm]
    rw [Vector3.normalize_of_pos m _ (by rw [h1]; exact zero_lt_one), h1,
      sqrt_one_eq m hsq hpos]
    simp [Vector3.divide]
  unfold reference_body_frame
  simp only [hsin, hcos, hz, hc, hx]
  simp [Vector3.cross]

/-- Eigen's `eulerAngles(0, 1, 2)` of the identity matrix is `(0, 0, 0)`. -/
theorem eulerAngles_identity (m : CMath K)
    (hsq : ∀ x : K, 0 ≤ x → m.sqrt x * m.sqrt x = x)
    (hpos : ∀ x : K, 0 < x → 0 < m.sqrt x)
    (hsin : m.sin 0 = 0) (hcos : m.cos 0 = 1) (hatan : m.atan2 0 1 = 0) :
    eulerAngles m ⟨⟨1, 0, 0⟩, ⟨0, 1, 0⟩, ⟨0, 0, 1⟩⟩ = ⟨0, 0, 0⟩ := by
  have h1 := sqrt_one_eq m hsq hpos
  unfold eulerAngles
  simp [hatan, hsin, hcos, h1]

/-- C13: for `acc_ref = (0, 0, k)` with `k > 0` (the value after the gravity
term) and `yaw_ref = 0`, with `sqrt` the positive square root, `sin 0 = 0`,
`cos 0 = 1` and `atan2 0 1 = 0`: the reference body frame is the identity
matrix, its Euler angles are all 0, and the commanded `roll_deg`,
`pitch_deg` and `yaw_deg` are 0. -/
theorem upward_demand_gives_level_attitude (m : CMath K) (k : K) (s : Sample K)
    (c : ControlState K) (hk : 0 < k)
    (hsq : ∀ x : K, 0 ≤ x → m.sqrt x * m.sqrt x = x)
    (hpos : ∀ x : K, 0 < x → 0 < m.sqrt x)
    (hsin : m.sin 0 = 0) (hcos : m.cos 0 = 1) (hatan : m.atan2 0 1 = 0)
    (hacc : c.acc_ref = ⟨0, 0, k⟩) (hyaw : c.yaw_ref = 0) :
    reference_body_frame m c.acc_ref c.yaw_ref = ⟨⟨1, 0, 0⟩, ⟨0, 1, 0⟩, ⟨0, 0, 1⟩⟩ ∧
    eulerAngles m (reference_body_frame m c.acc_ref c.yaw_ref) = ⟨0, 0, 0⟩ ∧
    (attitude_command m s c).roll_deg = 0 ∧
    (attitude_command m s c).pitch_deg = 0 ∧
    (attitude_command m s c).yaw_deg = 0 := by
  have hM : reference_body_frame m c.acc_ref c.yaw_ref =
      ⟨⟨1, 0, 0⟩, ⟨0, 1, 0⟩, ⟨0, 0, 1⟩⟩ := by
    rw [hacc, hyaw]
    exact reference_body_frame_upward m k hk hsq hpos hsin hcos
  have hE : eulerAngles m (reference_body_frame m c.acc_ref c.yaw_ref) = ⟨0, 0, 0⟩ := by
    rw [hM]
    exact eulerAngles_identity m hsq hpos hsin hcos hatan
  refine ⟨hM, hE, ?_, ?_, ?_⟩
  · unfold attitude_command
    simp only [hE, neg_zero, zero_mul]
  · unfold attitude_command
    simp only [hE, neg_zero, zero_mul]
  · unfold attitude_command
    simp only [hE, neg_zero, zero_mul]

theorem upward_demand_gives_level_attitude_witness :
    (attitude_command
      (⟨Real.sqrt, Real.sin, Real.cos, Real.exp, fun y x => (Complex.mk x y).arg,
        fun x y => x ^ y, Real.pi⟩ : CMath ℝ)
      (⟨0, 0, 0, 0, 0, 0, 1, 0, 0, 0⟩ : Sample ℝ)
      (⟨⟨0, 0, 2.1⟩, ⟨0, 0, 2.1⟩, ⟨0, 0, 3⟩, 0, ⟨0, 0, 2.1⟩, ⟨0, 0, 2.1⟩, ⟨0, 0, 0⟩,
        ⟨0, 0, 0⟩, ⟨0, 0, 0⟩⟩ : ControlState ℝ)).roll_deg = 0 ∧
    (attitude_command
      (⟨Real.sqrt, Real.sin, Real.cos, Real.exp, fun y x => (Complex.mk x y).arg,
        fun x y => x ^ y, Real.pi⟩ : CMath ℝ)
      (⟨0, 0, 0, 0, 0, 0, 1, 0, 0, 0⟩ : Sample ℝ)
      (⟨⟨0, 0, 2.1⟩, ⟨0, 0, 2.1⟩, ⟨0, 0, 3⟩, 0, ⟨0, 0, 2.1⟩, ⟨0, 0, 2.1⟩, ⟨0, 0, 0⟩,
        ⟨0, 0, 0⟩, ⟨0, 0, 0⟩⟩ : ControlState ℝ)).pitch_deg = 0 ∧
    (attitude_command
      (⟨Real.sqrt, Real.sin, Real.cos, Real.exp, fun y x => (Complex.mk x y).arg,
        fun x y => x ^ y, Real.pi⟩ : CMath ℝ)
      (⟨0, 0, 0, 0, 0, 0, 1, 0, 0, 0⟩ : Sample ℝ)
      (⟨⟨0, 0, 2.1⟩, ⟨0, 0, 2.1⟩, ⟨0, 0, 3⟩, 0, ⟨0, 0, 2.1⟩, ⟨0, 0, 2.1⟩, ⟨0, 0, 0⟩,
        ⟨0, 0, 0⟩, ⟨0, 0, 0⟩⟩ : ControlState ℝ)).yaw_deg = 0 :=
  (upward_demand_gives_level_attitude
    (⟨Real.sqrt, Real.sin, Real.cos, Real.exp, fun y x => (Complex.mk x y).arg,
      fun x y => x ^ y, Real.pi⟩ : CMath ℝ) 3
    (⟨0, 0, 0, 0, 0, 0, 1, 0, 0, 0⟩ : Sample ℝ)
    (⟨⟨0, 0, 2.1⟩, ⟨0, 0, 2.1⟩, ⟨0, 0, 3⟩, 0, ⟨0, 0, 2.1⟩, ⟨0, 0, 2.1⟩, ⟨0, 0, 0⟩,
      ⟨0, 0, 0⟩, ⟨0, 0, 0⟩⟩ : ControlState ℝ)
    (by norm_num) (fun _ hx => Real.mul_self_sqrt hx) (fun _ hx => Real.sqrt_pos.mpr hx)
    Real.sin_zero Real.cos_zero
    (by
      show (Complex.mk 1 0).arg = 0
      have h : Complex.mk 1 0 = 1 := rfl
      rw [h, Complex.arg_one])
    rfl rfl).2.2

end AttitudeClaims

end QuadControl
